import Mathlib

/-!
Verification development for the functorch transform-interpreter stack
(`functorch/csrc/DynamicLayer.cpp`) and the nll_loss batch-rule plumbing
(`functorch/csrc/BatchRulesLoss.cpp`).

The C++ sources are shallowly embedded: thread-local mutable state becomes an
explicit `FTState` record threaded through the functions, `TORCH_INTERNAL_ASSERT`
becomes the fatal error of an `Except` monad, `TORCH_CHECK(false, ...)` in the
mutation-safety check becomes the user-facing mutation error, and the boxed
re-dispatch `op.callBoxed(stack)` becomes an explicit call oracle parameter.
RAII guards (ForceLocalDispatchKeySet, WithoutTop, ExcludeDispatchKeyGuard,
IncludeDispatchKeyGuard, AutoGradMode) are modelled by saving the guarded
component before the call and restoring it on both the normal and the error
return path, exactly as C++ destructors do during unwinding.

Components whose implementation lives outside the two source files
(TensorWrapper.cpp, BatchedTensorImpl.cpp, PlumbingHelper.cpp,
BatchedFallback.cpp) are modelled from the specification; each such
definition carries a doc comment starting with `Modelled from the spec:`.
-/

namespace FT

/-- Dispatch keys relevant to the dynamic-layer core.  `Autograd` stands for the
whole `autograd_dispatch_keyset` of c10 (one representative key), `Batched`
is functorch's `kBatchedKey` (FT_BATCHED_KEY), `OldBatched` is the distinct
`DispatchKey::Batched` that `initAndPushDynamicLayer` rejects, `FrontMode` /
`BackMode` are `kDynamicLayerFrontModeKey` / `kDynamicLayerBackModeKey`,
`GradWrapper` is `kGradWrapperKey` and `VmapMode` is `kVmapModeKey`. -/
inductive DispatchKey where
  | Autograd
  | ADInplaceOrView
  | Batched
  | OldBatched
  | FrontMode
  | BackMode
  | GradWrapper
  | VmapMode
  | Undefined
deriving DecidableEq, Repr

/-- A `c10::DispatchKeySet` restricted to the keys the core manipulates,
represented as one boolean per key. -/
structure DispatchKeySet where
  autograd : Bool := false
  adInplaceOrView : Bool := false
  batched : Bool := false
  oldBatched : Bool := false
  frontMode : Bool := false
  backMode : Bool := false
  gradWrapper : Bool := false
  vmapMode : Bool := false
deriving DecidableEq, Repr

def DispatchKeySet.has (s : DispatchKeySet) : DispatchKey → Bool
  | .Autograd => s.autograd
  | .ADInplaceOrView => s.adInplaceOrView
  | .Batched => s.batched
  | .OldBatched => s.oldBatched
  | .FrontMode => s.frontMode
  | .BackMode => s.backMode
  | .GradWrapper => s.gradWrapper
  | .VmapMode => s.vmapMode
  | .Undefined => false

/-- `DispatchKeySet::add`; adding `Undefined` is a no-op (an empty key set in c10). -/
def DispatchKeySet.add (s : DispatchKeySet) : DispatchKey → DispatchKeySet
  | .Autograd => { s with autograd := true }
  | .ADInplaceOrView => { s with adInplaceOrView := true }
  | .Batched => { s with batched := true }
  | .OldBatched => { s with oldBatched := true }
  | .FrontMode => { s with frontMode := true }
  | .BackMode => { s with backMode := true }
  | .GradWrapper => { s with gradWrapper := true }
  | .VmapMode => { s with vmapMode := true }
  | .Undefined => s

/-- `DispatchKeySet::remove`. -/
def DispatchKeySet.remove (s : DispatchKeySet) : DispatchKey → DispatchKeySet
  | .Autograd => { s with autograd := false }
  | .ADInplaceOrView => { s with adInplaceOrView := false }
  | .Batched => { s with batched := false }
  | .OldBatched => { s with oldBatched := false }
  | .FrontMode => { s with frontMode := false }
  | .BackMode => { s with backMode := false }
  | .GradWrapper => { s with gradWrapper := false }
  | .VmapMode => { s with vmapMode := false }
  | .Undefined => s

/-- Set union, `operator|`. -/
def DispatchKeySet.union (s t : DispatchKeySet) : DispatchKeySet where
  autograd := s.autograd || t.autograd
  adInplaceOrView := s.adInplaceOrView || t.adInplaceOrView
  batched := s.batched || t.batched
  oldBatched := s.oldBatched || t.oldBatched
  frontMode := s.frontMode || t.frontMode
  backMode := s.backMode || t.backMode
  gradWrapper := s.gradWrapper || t.gradWrapper
  vmapMode := s.vmapMode || t.vmapMode

/-- Set intersection, `operator&`. -/
def DispatchKeySet.inter (s t : DispatchKeySet) : DispatchKeySet where
  autograd := s.autograd && t.autograd
  adInplaceOrView := s.adInplaceOrView && t.adInplaceOrView
  batched := s.batched && t.batched
  oldBatched := s.oldBatched && t.oldBatched
  frontMode := s.frontMode && t.frontMode
  backMode := s.backMode && t.backMode
  gradWrapper := s.gradWrapper && t.gradWrapper
  vmapMode := s.vmapMode && t.vmapMode

/-- Set difference, `operator-`. -/
def DispatchKeySet.sdiff (s t : DispatchKeySet) : DispatchKeySet where
  autograd := s.autograd && !t.autograd
  adInplaceOrView := s.adInplaceOrView && !t.adInplaceOrView
  batched := s.batched && !t.batched
  oldBatched := s.oldBatched && !t.oldBatched
  frontMode := s.frontMode && !t.frontMode
  backMode := s.backMode && !t.backMode
  gradWrapper := s.gradWrapper && !t.gradWrapper
  vmapMode := s.vmapMode && !t.vmapMode

/-- `autograd_dispatch_keyset`, collapsed onto the representative key. -/
def autograd_dispatch_keyset : DispatchKeySet := { autograd := true }

/-- `all_dynlayer_keyset` (DynamicLayer.cpp lines 58-65): the functorch-controlled
keys — front mode, back mode, grad wrapper, batched, ADInplaceOrView — united
with the autograd keyset.  (`DispatchKey::Batched` is commented out in the source.) -/
def all_dynlayer_keyset : DispatchKeySet :=
  DispatchKeySet.union
    { frontMode := true, backMode := true, gradWrapper := true,
      batched := true, adInplaceOrView := true }
    autograd_dispatch_keyset

/-- `c10::impl::LocalDispatchKeySet`: the thread-local included/excluded pair. -/
structure LocalDispatchKeySet where
  included : DispatchKeySet := {}
  excluded : DispatchKeySet := {}
deriving DecidableEq, Repr

/-- Error outcomes: `fatal` is a `TORCH_INTERNAL_ASSERT` contract violation
(also used for C++ undefined behaviour such as out-of-range indexing);
`mutationError` is the descriptive user-facing `TORCH_CHECK` raised by
`checkForInvalidMutationOnCaptures`. -/
inductive Err where
  | fatal
  | mutationError
deriving DecidableEq, Repr

/-- Modelled from the spec: the value model.  `TensorWrapper` (the grad wrapper)
and `BatchedTensorImpl` live in TensorWrapper.cpp / BatchedTensorImpl.cpp, which
are not under src/.  Per the spec's Value Wrapper contract a wrapper carries the
originating layer's `level`, a liveness flag (the shared liveness cell read
through `is_alive()`, collapsed here to the boolean it holds), its cached sizes
metadata (Nat-abstracted) and the exclusively-owned `inner` value; a batching
wrapper carries a level and a batch dimension.  `base` is a plain tensor with an
identity and Nat-abstracted sizes; `undef` is an undefined tensor. -/
inductive Tensor where
  | undef
  | base (id : Nat) (sizes : Nat)
  | grad (level : Nat) (alive : Bool) (meta : Nat) (inner : Tensor)
  | batched (level : Nat) (bdim : Nat) (inner : Tensor)
deriving DecidableEq, Repr

/-- `Tensor::defined()`. -/
def Tensor.defined : Tensor → Bool
  | .undef => false
  | _ => true

/-- Current sizes of a tensor; a grad wrapper reports its cached metadata. -/
def Tensor.sizes : Tensor → Nat
  | .undef => 0
  | .base _ s => s
  | .grad _ _ m _ => m
  | .batched _ _ inner => inner.sizes

/-- `maybeGetTensorWrapper`: the grad wrapper at the top of the value, if any
(a `BatchedTensorImpl` is a different TensorImpl subclass, so it yields none). -/
def maybeGetTensorWrapper : Tensor → Option Tensor
  | .grad l a m inner => some (.grad l a m inner)
  | _ => none

/-- Wrapper level accessor (`TensorWrapper::level()`, always populated here). -/
def Tensor.wrapperLevel : Tensor → Nat
  | .grad l _ _ _ => l
  | _ => 0

/-- `maybeGetBatchedImpl` as a boolean: is the value's top wrapper a batching wrapper. -/
def isBatchedTensor : Tensor → Bool
  | .batched _ _ _ => true
  | _ => false

/-- Modelled from the spec: `makeTensorWrapper(tensor, level)` (TensorWrapper.cpp,
not under src/) materializes a fresh grad wrapper stamped with `level`, alive
(its liveness cell belongs to the layer currently on the stack), caching the
wrapped value's current sizes. -/
def makeTensorWrapper (t : Tensor) (level : Nat) : Tensor :=
  .grad level true t.sizes t

/-- Modelled from the spec: `TensorWrapper::refreshMetadata()` (TensorWrapper.cpp,
not under src/) refreshes the wrapper's cached metadata from the underlying
value, which may have changed shape during an in-place operation. -/
def refreshMetadata : Tensor → Tensor
  | .grad l a _ inner => .grad l a inner.sizes inner
  | t => t

/-- One `DynamicLayer` record: transform kind, nesting level, optional batch
size, optional previous grad mode, and the identifier of its shared liveness
cell (`life_handle_`, a `shared_ptr<bool>`, represented by an index into the
state's cell store). -/
structure DynamicLayer where
  key : DispatchKey
  layerId : Nat
  batchSize : Option Nat := none
  prevGradMode : Option Bool := none
  lifeCell : Nat := 0
deriving DecidableEq, Repr

/-- The per-thread functorch state: the dynamic layer stack (`FuncTorchTLS`),
the saved pre-transform key-set snapshot (`prev_local_keyset_`), the ambient
thread-local dispatch key set, the global grad mode (`c10::GradMode`), and the
store of liveness cells (fresh cells are appended; wrappers and layers refer to
them by index). -/
structure FTState where
  dynamicLayerStack : List DynamicLayer := []
  prevLocalKeyset : Option LocalDispatchKeySet := none
  tls : LocalDispatchKeySet := {}
  gradMode : Bool := true
  cells : List Bool := []
deriving DecidableEq, Repr

/-- `setDynamicLayerFrontBackKeysIncluded`: force the included bits of the two
dynamic-layer mode keys on the thread-local key set. -/
def setDynamicLayerFrontBackKeysIncluded (included : Bool) (tls : LocalDispatchKeySet) :
    LocalDispatchKeySet :=
  { tls with included := { tls.included with frontMode := included, backMode := included } }

/-- `resetFunctorchLocalDispatchKeySetRAII`, the key-set computation (lines
117-131): strip the functorch-controlled keys from the current included and
excluded sets and put back the bits those keys had in the pre-transform
snapshot. -/
def resetKeys (tls prev : LocalDispatchKeySet) : LocalDispatchKeySet where
  included := (tls.included.sdiff all_dynlayer_keyset).union
    (prev.included.inter all_dynlayer_keyset)
  excluded := (tls.excluded.sdiff all_dynlayer_keyset).union
    (prev.excluded.inter all_dynlayer_keyset)

/-! ## The layer stack operations -/

/-- `popDynamicLayer` (lines 169-186): assert the stack is non-empty, read the
top descriptor, assert its key is not `Undefined`, remove it, and on the
transition to an empty stack drop the front/back mode keys from the
thread-local included set. -/
def popDynamicLayer (st : FTState) : Except Err (DynamicLayer × FTState) :=
  match st.dynamicLayerStack.getLast? with
  | none => .error .fatal
  | some result =>
    if result.key = .Undefined then .error .fatal
    else
      let base := st.dynamicLayerStack.dropLast
      let st1 := { st with dynamicLayerStack := base }
      if base.isEmpty then
        .ok (result, { st1 with tls := setDynamicLayerFrontBackKeysIncluded false st1.tls })
      else
        .ok (result, st1)

/-- `pushDynamicLayer` (lines 188-206): compute `layerId = 1 + size`, assert it
matches the incoming descriptor's level, append the descriptor, and on the
transition from empty assert the snapshot exists and include the front/back
mode keys. -/
def pushDynamicLayer (dl : DynamicLayer) (st : FTState) : Except Err (Nat × FTState) :=
  let was_empty := st.dynamicLayerStack.isEmpty
  let layerId := 1 + st.dynamicLayerStack.length
  if layerId ≠ dl.layerId then .error .fatal
  else
    let st1 := { st with dynamicLayerStack := st.dynamicLayerStack ++ [dl] }
    if was_empty then
      if st1.prevLocalKeyset.isNone then .error .fatal
      else .ok (layerId, { st1 with tls := setDynamicLayerFrontBackKeysIncluded true st1.tls })
    else .ok (layerId, st1)

/-- `initAndPushDynamicLayer` (lines 208-227): on transition from empty record
the current thread-local key set as the pre-transform snapshot (otherwise
assert a snapshot exists), reject `Undefined` and the legacy
`DispatchKey::Batched`, require a previous grad mode for `Autograd`, construct
the descriptor at level `1 + size` (the constructor allocates a fresh liveness
cell, initialized true — the cell allocation is modelled from the spec since
`DynamicLayer.h` is not under src/) and push it. -/
def initAndPushDynamicLayer (key : DispatchKey) (batch_size : Option Nat)
    (prev_grad_mode : Option Bool) (st : FTState) : Except Err (Nat × FTState) :=
  let was_empty := st.dynamicLayerStack.isEmpty
  let st1 := if was_empty then { st with prevLocalKeyset := some st.tls } else st
  if ¬ was_empty ∧ st1.prevLocalKeyset.isNone then .error .fatal
  else if key = .Undefined then .error .fatal
  else if key = .OldBatched then .error .fatal
  else if key = .Autograd ∧ prev_grad_mode.isNone then .error .fatal
  else
    let layerId := 1 + st1.dynamicLayerStack.length
    let cell := st1.cells.length
    let st2 := { st1 with cells := st1.cells ++ [true] }
    pushDynamicLayer ⟨key, layerId, batch_size, prev_grad_mode, cell⟩ st2

/-- `popDynamicLayerAndDeleteMetadata` (lines 229-241): pop, write false into the
popped descriptor's liveness cell, and on the transition to empty clear the
saved pre-transform snapshot. -/
def popDynamicLayerAndDeleteMetadata (st : FTState) : Except Err (DynamicLayer × FTState) :=
  match popDynamicLayer st with
  | .error e => .error e
  | .ok (result, st1) =>
    let st2 := { st1 with cells := st1.cells.set result.lifeCell false }
    if st2.dynamicLayerStack.isEmpty then
      .ok (result, { st2 with prevLocalKeyset := none })
    else
      .ok (result, st2)

/-! ## IValues and `foreachTensorInplace` -/

/-- One element of a generic ordered list (`c10::List<IValue>`): the loop
bodies in the source only distinguish tensor-typed elements (`elt.isTensor()`)
from everything else, so non-tensor elements are collapsed to an opaque
payload. -/
inductive ListElem where
  | tensor (t : Tensor)
  | other (n : Int)
deriving DecidableEq, Repr

/-- A boxed `c10::IValue` as far as the core inspects it: a tensor, a tensor
list, a generic ordered list (`c10::List<IValue>`, e.g. `Tensor?[]`), a keyed
generic dictionary, or any non-tensor payload (collapsed to an integer). -/
inductive IValue where
  | tensor (t : Tensor)
  | tensorList (ts : List Tensor)
  | list (elts : List ListElem)
  | genericDict
  | scalar (n : Int)
deriving DecidableEq, Repr

/-- The tensors directly visible to `foreachTensorInplace` inside one argument:
the tensor itself, the elements of a tensor list, and the tensor-typed elements
of a generic list (non-tensor list elements are skipped, nothing recurses
deeper). -/
def IValue.tensors : IValue → List Tensor
  | .tensor t => [t]
  | .tensorList ts => ts
  | .list elts => elts.filterMap (fun e => match e with | .tensor t => some t | _ => none)
  | _ => []

/-- The generic-list body of the loop in `foreachTensorInplace` (lines 285-300):
apply `f` to every tensor-typed element, leave the rest untouched. -/
def processListElems (f : Tensor → Except Err Tensor) :
    List ListElem → Except Err (List ListElem)
  | [] => .ok []
  | .tensor t :: rest =>
    match f t with
    | .error e => .error e
    | .ok t' =>
      match processListElems f rest with
      | .error e => .error e
      | .ok rest' => .ok (.tensor t' :: rest')
  | e :: rest =>
    match processListElems f rest with
    | .error err => .error err
    | .ok rest' => .ok (e :: rest')

/-- The tensor-list body of the loop in `foreachTensorInplace` (lines 301-307):
apply `f` to every element. -/
def mapTensors (f : Tensor → Except Err Tensor) : List Tensor → Except Err (List Tensor)
  | [] => .ok []
  | t :: ts =>
    match f t with
    | .error e => .error e
    | .ok t' =>
      match mapTensors f ts with
      | .error e => .error e
      | .ok ts' => .ok (t' :: ts')

/-- The per-argument body of `foreachTensorInplace` (lines 283-318): peek inside
generic lists and tensor lists, fatally reject generic dictionaries, replace a
tensor argument by `f` of it, and assert (fatally) that `f` did not turn a
defined tensor argument into an undefined one. -/
def processIValue (f : Tensor → Except Err Tensor) : IValue → Except Err IValue
  | .list elts =>
    match processListElems f elts with
    | .error e => .error e
    | .ok elts' => .ok (.list elts')
  | .tensorList ts =>
    match mapTensors f ts with
    | .error e => .error e
    | .ok ts' => .ok (.tensorList ts')
  | .genericDict => .error .fatal
  | .tensor t =>
    match f t with
    | .error e => .error e
    | .ok t' => if t.defined && !t'.defined then .error .fatal else .ok (.tensor t')
  | iv => .ok iv

/-- The index loop of `foreachTensorInplace` (lines 282-319), as structural
recursion on the remaining iteration count `end - idx`; out-of-range indexing,
undefined behaviour in C++, is modelled as a fatal error. -/
def foreachGo (f : Tensor → Except Err Tensor) :
    Nat → List IValue → Nat → Except Err (List IValue)
  | 0, args, _ => .ok args
  | fuel + 1, args, idx =>
    match args[idx]? with
    | none => .error .fatal
    | some iv =>
      match processIValue f iv with
      | .error err => .error err
      | .ok iv' => foreachGo f fuel (args.set idx iv') (idx + 1)

/-- `foreachTensorInplace(args, begin, end, func)` (lines 277-320): assert
`0 ≤ begin`, `0 ≤ end`, `begin ≤ end`, then run the loop over indices
`begin, …, end - 1`. -/
def foreachTensorInplace (args : List IValue) (b e : Int)
    (f : Tensor → Except Err Tensor) : Except Err (List IValue) :=
  if b < 0 ∨ e < 0 ∨ ¬ b ≤ e then .error .fatal
  else foreachGo f (e.toNat - b.toNat) args b.toNat

/-- Pure image of one argument under the loop body, used to state what the
loop computes when nothing faults. -/
def processIValuePure (fp : Tensor → Tensor) : IValue → IValue
  | .list elts =>
    .list (elts.map (fun e => match e with | .tensor t => .tensor (fp t) | _ => e))
  | .tensorList ts => .tensorList (ts.map fp)
  | .tensor t => .tensor (fp t)
  | iv => iv

/-! ## Schemas and the front interceptor -/

/-- The `(a!)`-style alias annotation of one schema argument or return:
whether alias info is present and whether it marks a write. -/
structure AliasInfo where
  isWrite : Bool
deriving DecidableEq, Repr

/-- One schema argument or return slot with its optional alias info. -/
structure SchemaArg where
  aliasInfo : Option AliasInfo := none
deriving DecidableEq, Repr

/-- The part of `c10::FunctionSchema` that `isInplaceOp` and the interceptors
consult: the mutability bit, the arguments and the returns. -/
structure FunctionSchema where
  is_mutable : Bool
  arguments : List SchemaArg
  returns : List SchemaArg
deriving DecidableEq, Repr

/-- `isInplaceOp` (lines 400-419): the schema is mutable with exactly one
return, the first argument carries write alias info, no other argument is
aliased, and the return carries write alias info.  (A mutable operator always
has at least one argument; an empty argument list yields false here.) -/
def isInplaceOp (schema : FunctionSchema) : Bool :=
  if ¬ schema.is_mutable ∨ schema.returns.length ≠ 1 then false
  else
    match schema.arguments with
    | [] => false
    | first :: rest =>
      match first.aliasInfo with
      | none => false
      | some info =>
        if ¬ info.isWrite then false
        else if rest.any (fun a => a.aliasInfo.isSome) then false
        else
          match schema.returns.head? with
          | some ret =>
            match ret.aliasInfo with
            | some retInfo => retInfo.isWrite
            | none => false
          | none => false

/-- `unwrapIfDead` (lines 266-275): if the value's top wrapper is a grad
wrapper that is no longer alive, fall through to the wrapped inner value. -/
def unwrapIfDead (tensor : Tensor) : Tensor :=
  match maybeGetTensorWrapper tensor with
  | none => tensor
  | some (.grad _ alive _ inner) => if alive then tensor else inner
  | some _ => tensor

/-- `materializeGradWrappers` (lines 243-264): undefined tensors pass through;
the stack must be non-empty; when the top layer is not Autograd the tensor
passes through; otherwise an unwrapped tensor gets a fresh wrapper at the
current level, a wrapper above the current level is a fatal escape, a wrapper
at the current level passes through unchanged, and a wrapper below the current
level gets a fresh wrapper over the whole value. -/
def materializeGradWrappers (tensor : Tensor) (dynlayerStack : List DynamicLayer) :
    Except Err Tensor :=
  if ¬ tensor.defined then .ok tensor
  else
    match dynlayerStack.getLast? with
    | none => .error .fatal
    | some top =>
      if top.key ≠ .Autograd then .ok tensor
      else
        let cur_level := top.layerId
        match maybeGetTensorWrapper tensor with
        | none => .ok (makeTensorWrapper tensor cur_level)
        | some w =>
          if ¬ w.wrapperLevel ≤ cur_level then .error .fatal
          else if w.wrapperLevel = cur_level then .ok tensor
          else .ok (makeTensorWrapper tensor cur_level)

/-- The `maybeTransformGradWrappers` lambda of `dynamicLayerFrontFallback`
(lines 487-490): unwrap dead grad wrappers, then materialize live ones. -/
def maybeTransformGradWrappers (dynlayerStack : List DynamicLayer) (tensor : Tensor) :
    Except Err Tensor :=
  materializeGradWrappers (unwrapIfDead tensor) dynlayerStack

/-- The per-tensor check of `sanityCheckStack` (lines 377-384): fatal if the
tensor still carries a grad wrapper or a batching wrapper. -/
def sanityCheckTensor (tensor : Tensor) : Except Err Tensor :=
  if (maybeGetTensorWrapper tensor).isSome then .error .fatal
  else if isBatchedTensor tensor then .error .fatal
  else .ok tensor

/-- `sanityCheckStack` (lines 374-385): run the per-tensor check over the last
`num_args` stack slots. -/
def sanityCheckStack (schema : FunctionSchema) (vstack : List IValue) :
    Except Err (List IValue) :=
  foreachTensorInplace vstack
    ((vstack.length : Int) - schema.arguments.length) (vstack.length : Int)
    sanityCheckTensor

/-- `batchedAtCurrentLevel` (lines 387-398): the tensor carries a batching
wrapper whose level equals the top layer's level.  (The source reads the
thread-local stack and its back; it is only ever called with a non-empty
stack, so the empty case defaults to false.) -/
def batchedAtCurrentLevel (dynamicLayerStack : List DynamicLayer) (tensor : Tensor) : Bool :=
  match dynamicLayerStack.getLast? with
  | none => false
  | some layer =>
    match tensor with
    | .batched lvl _ _ => lvl = layer.layerId
    | _ => false

/-- `allTensors` (lines 335-365): does every tensor reachable in the argument
slice (directly, in tensor lists, and at tensor-typed generic-list elements)
satisfy the predicate; generic dictionaries are fatally rejected. -/
def allTensors (args : List IValue) (pred : Tensor → Bool) : Except Err Bool :=
  match args with
  | [] => .ok true
  | iv :: rest =>
    match iv with
    | .list elts =>
      if elts.all (fun e => match e with | .tensor t => pred t | _ => true) then
        allTensors rest pred
      else .ok false
    | .tensorList ts =>
      if ts.all pred then allTensors rest pred else .ok false
    | .genericDict => .error .fatal
    | .tensor t => if pred t then allTensors rest pred else .ok false
    | .scalar _ => allTensors rest pred

/-- `anyTensors` (lines 367-372), by De Morgan over `allTensors`. -/
def anyTensors (args : List IValue) (pred : Tensor → Bool) : Except Err Bool :=
  match allTensors args (fun t => ! pred t) with
  | .error e => .error e
  | .ok b => .ok (! b)

/-- `checkForInvalidMutationOnCaptures` (lines 421-445): on an Autograd top
layer and an in-place schema, the first argument (after unwrapping a dead
wrapper) must carry a grad wrapper at exactly the current level; otherwise the
descriptive user-facing mutation error is raised.  `args[0].toTensor()` on a
non-tensor argument is a fatal error. -/
def checkForInvalidMutationOnCaptures (schema : FunctionSchema) (vstack : List IValue)
    (dynamicLayerStack : List DynamicLayer) : Except Err Unit :=
  match dynamicLayerStack.getLast? with
  | none => .error .fatal
  | some top =>
    if top.key ≠ .Autograd then .ok ()
    else if ¬ isInplaceOp schema then .ok ()
    else
      let n := schema.arguments.length
      if vstack.length < n then .error .fatal
      else
        match (vstack.drop (vstack.length - n)).head? with
        | none => .error .fatal
        | some (.tensor t) =>
          let mutated_arg := unwrapIfDead t
          let cur_level := top.layerId
          match maybeGetTensorWrapper mutated_arg with
          | some w => if w.wrapperLevel = cur_level then .ok () else .error .mutationError
          | none => .error .mutationError
        | some _ => .error .fatal

/-- `getIncludeExcludeSetsFor` (lines 447-462): start from the functorch
keyset minus the back-mode key; Autograd further drops the autograd keys and
ADInplaceOrView from the exclude set; Batched drops the batched key from the
exclude set and adds the vmap-mode key to the include set; any other key is a
fatal contract violation. -/
def getIncludeExcludeSetsFor (key : DispatchKey) :
    Except Err (DispatchKeySet × DispatchKeySet) :=
  let exclude := all_dynlayer_keyset.remove .BackMode
  if key = .Autograd then
    .ok ({}, (exclude.sdiff autograd_dispatch_keyset).remove .ADInplaceOrView)
  else if key = .Batched then
    .ok (({} : DispatchKeySet).add .VmapMode, exclude.remove .Batched)
  else .error .fatal

/-- The key-set computation of the non-empty branch of
`dynamicLayerFrontFallback` (lines 496-506): the router's sets for the top
layer's key, with the batched key added to the exclude set for this call when
the layer is Batched and no tensor argument is batched at the current level. -/
def frontKeySets (key : DispatchKey) (dynamicLayerStack : List DynamicLayer)
    (args : List IValue) : Except Err (DispatchKeySet × DispatchKeySet) :=
  match getIncludeExcludeSetsFor key with
  | .error e => .error e
  | .ok (include_set, exclude) =>
    if key = .Batched then
      match anyTensors args (batchedAtCurrentLevel dynamicLayerStack) with
      | .error e => .error e
      | .ok b =>
        if b then .ok (include_set, exclude)
        else .ok (include_set, exclude.add .Batched)
    else .ok (include_set, exclude)

/-- Result of one boxed invocation: the state after it, the jit stack after
it, and the error it raised, if any. -/
abbrev CallResult := FTState × List IValue × Option Err

/-- The boxed re-dispatch `op.callBoxed(stack)`: an oracle mapping the state
and the jit stack at the call site to a `CallResult`.  On an error the oracle
still reports the state and stack at the throw point, and the caller's scoped
guards are unwound over it. -/
abbrev CallOracle := FTState → List IValue → CallResult

/-- `dynamicLayerFrontFallback` (lines 464-513).  Empty stack: sanity-check the
arguments, reset the functorch-controlled keys to the pre-transform snapshot
(scoped), and invoke the operation directly.  Non-empty stack: run the
mutation-safety check, normalize the arguments over the last `num_args` slots,
compute the include/exclude sets for the top layer (with the batched-key
optimization), install them over the thread-local key set (scoped
exclude/include guards), and re-dispatch. -/
def dynamicLayerFrontFallback (schema : FunctionSchema) (st : FTState)
    (vstack : List IValue) (g : CallOracle) : CallResult :=
  if st.dynamicLayerStack.isEmpty then
    match sanityCheckStack schema vstack with
    | .error e => (st, vstack, some e)
    | .ok _ =>
      match st.prevLocalKeyset with
      | none => (st, vstack, some .fatal)
      | some prev =>
        let saved := st.tls
        let r := g { st with tls := resetKeys st.tls prev } vstack
        ({ r.1 with tls := saved }, r.2.1, r.2.2)
  else
    match checkForInvalidMutationOnCaptures schema vstack st.dynamicLayerStack with
    | .error e => (st, vstack, some e)
    | .ok _ =>
      let n := schema.arguments.length
      match foreachTensorInplace vstack
          ((vstack.length : Int) - n) (vstack.length : Int)
          (maybeTransformGradWrappers st.dynamicLayerStack) with
      | .error e => (st, vstack, some e)
      | .ok vstack1 =>
        match st.dynamicLayerStack.getLast? with
        | none => (st, vstack1, some .fatal)
        | some layer =>
          match frontKeySets layer.key st.dynamicLayerStack
              (vstack1.drop (vstack1.length - n)) with
          | .error e => (st, vstack1, some e)
          | .ok (include_set, exclude) =>
            let saved := st.tls
            let tls1 : LocalDispatchKeySet :=
              { included := st.tls.included.union include_set,
                excluded := st.tls.excluded.union exclude }
            let r := g { st with tls := tls1 } vstack1
            ({ r.1 with tls := saved }, r.2.1, r.2.2)

/-! ## The back interceptor -/

/-- The `unwrap` lambda of `dynamicLayerBackFallback` (lines 546-560):
undefined and unwrapped tensors pass through; a grad wrapper above the current
level is a fatal escape; a grad wrapper at exactly the current level is
unwrapped to its inner value (regardless of liveness); a wrapper below the
current level passes through. -/
def backUnwrap (cur_level : Nat) (tensor : Tensor) : Except Err Tensor :=
  if ¬ tensor.defined then .ok tensor
  else
    match tensor with
    | .grad lvl _ _ inner =>
      if ¬ lvl ≤ cur_level then .error .fatal
      else if lvl = cur_level then .ok inner
      else .ok tensor
    | t => .ok t

/-- The `wrap` lambda of `dynamicLayerBackFallback` (lines 561-569): wrap every
defined tensor in a fresh grad wrapper at the current level. -/
def backWrap (cur_level : Nat) (tensor : Tensor) : Except Err Tensor :=
  if ¬ tensor.defined then .ok tensor
  else .ok (makeTensorWrapper tensor cur_level)

/-- Steps 1 and 2 of `dynamicLayerBackFallback` (lines 581-591), run only for
an Autograd top layer: append a copy of the argument slice to the jit stack
and unwrap every tensor of the appended copy at the current level. -/
def backDupUnwrap (schema : FunctionSchema) (cur_key : DispatchKey) (cur_level : Nat)
    (vstack : List IValue) : Except Err (List IValue) :=
  if cur_key = .Autograd then
    let args_size := schema.arguments.length
    if vstack.length < args_size then .error .fatal
    else
      let stack1 := vstack ++ vstack.drop (vstack.length - args_size)
      foreachTensorInplace stack1
        ((stack1.length : Int) - args_size) (stack1.length : Int)
        (backUnwrap cur_level)
  else .ok vstack

/-- Step 5 of `dynamicLayerBackFallback` for one stack slot (lines 620-630):
if the slot holds a tensor carrying a grad wrapper, refresh that wrapper's
cached metadata; every other slot is untouched. -/
def refreshIValue (iv : IValue) : IValue :=
  match iv with
  | .tensor t =>
    match maybeGetTensorWrapper t with
    | some _ => .tensor (refreshMetadata t)
    | none => .tensor t
  | _ => iv

/-- Step 5 of `dynamicLayerBackFallback` over the slice of `n` slots starting
at `front`. -/
def refreshRange (v : List IValue) (front n : Nat) : List IValue :=
  v.take front ++ ((v.drop front).take n).map refreshIValue ++ v.drop (front + n)

/-- The destructor of `WithoutTop` (lines 515-523): push the saved layer back.
Its `pushDynamicLayer` asserts (level match, snapshot present on the
empty-to-non-empty transition) hold on every path on which the destructor runs
under the frame hypotheses used below — a violation would be a
`std::terminate` during unwinding; the model re-pushes unconditionally. -/
def restoreTop (layer : DynamicLayer) (st : FTState) : FTState :=
  let was_empty := st.dynamicLayerStack.isEmpty
  let st1 := { st with dynamicLayerStack := st.dynamicLayerStack ++ [layer] }
  if was_empty then { st1 with tls := setDynamicLayerFrontBackKeysIncluded true st1.tls }
  else st1

/-- `dynamicLayerBackFallback` (lines 537-635): read level, key and previous
grad mode from the top layer; for Autograd duplicate and unwrap the argument
slice (steps 1-2); pop the top layer (`WithoutTop`), reset the
functorch-controlled keys to the snapshot, re-include the front/back mode keys,
force grad mode off when the previous mode was disabled, and re-dispatch; on
both return paths the guards restore grad mode and the key set and push the
layer back; for Autograd then wrap the returns (step 4), refresh the metadata
of the remaining pre-call arguments (step 5) and erase them (step 6). -/
def dynamicLayerBackFallback (schema : FunctionSchema) (st : FTState)
    (vstack : List IValue) (g : CallOracle) : CallResult :=
  match st.dynamicLayerStack.getLast? with
  | none => (st, vstack, some .fatal)
  | some layer =>
    let cur_level := layer.layerId
    let cur_key := layer.key
    let prev_grad_mode := layer.prevGradMode
    if cur_key = .Autograd ∧ prev_grad_mode.isNone then (st, vstack, some .fatal)
    else
      match backDupUnwrap schema cur_key cur_level vstack with
      | .error e => (st, vstack, some e)
      | .ok stack2 =>
        if cur_key = .Undefined then (st, stack2, some .fatal)
        else
          let base := st.dynamicLayerStack.dropLast
          let tls1 := if base.isEmpty
            then setDynamicLayerFrontBackKeysIncluded false st.tls else st.tls
          let st1 : FTState := { st with dynamicLayerStack := base, tls := tls1 }
          match st1.prevLocalKeyset with
          | none => (restoreTop layer st1, stack2, some .fatal)
          | some prev =>
            let saved_tls := st1.tls
            let tls2 := setDynamicLayerFrontBackKeysIncluded true (resetKeys st1.tls prev)
            let force_no_grad := cur_key = .Autograd ∧ prev_grad_mode = some false
            let saved_grad := st1.gradMode
            let st_call : FTState :=
              { st1 with
                tls := tls2,
                gradMode := if force_no_grad then false else st1.gradMode }
            let r := g st_call stack2
            let st2 : FTState :=
              { r.1 with
                gradMode := if force_no_grad then saved_grad else r.1.gradMode,
                tls := saved_tls }
            let st3 := restoreTop layer st2
            match r.2.2 with
            | some e => (st3, r.2.1, some e)
            | none =>
              if cur_key = .Autograd then
                let v3 := r.2.1
                let ret_size := schema.returns.length
                match foreachTensorInplace v3
                    ((v3.length : Int) - ret_size) (v3.length : Int)
                    (backWrap cur_level) with
                | .error e => (st3, v3, some e)
                | .ok v4 =>
                  let args_size := schema.arguments.length
                  if v4.length < args_size + ret_size then (st3, v4, some .fatal)
                  else
                    let args_front := v4.length - args_size - ret_size
                    let v5 := refreshRange v4 args_front args_size
                    let v6 := v5.take args_front ++ v5.drop (args_front + args_size)
                    (st3, v6, none)
              else (st3, r.2.1, none)

/-! ## nll_loss_forward plumbing (BatchRulesLoss.cpp) -/

/-- Modelled from the spec: `unwrapTensorAtLevel` (PlumbingHelper.cpp, not
under src/) splits a value into its inner value and optional batch dimension
when it carries a batching wrapper at the given level; otherwise it returns
the value itself and no batch dimension. -/
def unwrapTensorAtLevel (tensor : Tensor) (level : Nat) : Tensor × Option Nat :=
  match tensor with
  | .batched lvl bdim inner => if lvl = level then (inner, some bdim) else (tensor, none)
  | _ => (tensor, none)

/-- Which path `nll_loss_forward_plumbing` takes. -/
inductive NllPath where
  | batchRule
  | slowFallback
deriving DecidableEq, Repr

/-- The routing logic of `nll_loss_forward_plumbing` (BatchRulesLoss.cpp lines
53-89): assert a current dynamic layer exists, unwrap self, target and the
optional weight at the current level, and take the specialized batch rule
exactly when self and target both carry a batch dimension, the weight carries
none, and `ignore_index < 0`; otherwise dispatch to the generic slow fallback.
(`reduction` is forwarded to whichever path runs; it does not affect routing.) -/
def nll_loss_forward_plumbing (st : FTState) (self target : Tensor)
    (weight : Option Tensor) (reduction ignore_index : Int) : Except Err NllPath :=
  match st.dynamicLayerStack.getLast? with
  | none => .error .fatal
  | some layer =>
    let cur_level := layer.layerId
    let self_bdim := (unwrapTensorAtLevel self cur_level).2
    let target_bdim := (unwrapTensorAtLevel target cur_level).2
    let weight_bdim : Option Nat :=
      match weight with
      | some w => (unwrapTensorAtLevel w cur_level).2
      | none => none
    let _ := reduction
    if self_bdim.isSome ∧ target_bdim.isSome ∧ weight_bdim.isNone ∧ ignore_index < 0 then
      .ok .batchRule
    else .ok .slowFallback

/-- Modelled from the spec: the generic slow fallback (BatchedFallback.cpp, not
under src/) loops the unbatched operation over the vectorized dimension
explicitly, one slice at a time. -/
def loopedFallback (op : Tensor → Tensor) : List Tensor → List Tensor
  | [] => []
  | x :: xs => op x :: loopedFallback op xs

/-- Is a value batched at a given level (for stating the routing condition). -/
def isBatchedAtLevel (tensor : Tensor) (level : Nat) : Bool :=
  match tensor with
  | .batched lvl _ _ => lvl = level
  | _ => false

/-! ## Statement helpers

Derived forms used only to state and prove the theorems below; they are not
part of the embedding of the source. -/

/-- `f` behaves like the pure function `fp` on every tensor visible in `iv`,
preserving definedness, and `iv` is not a generic dictionary: the conditions
under which the `foreachTensorInplace` loop body cannot fault on `iv`. -/
def GoodAt (f : Tensor → Except Err Tensor) (fp : Tensor → Tensor) (iv : IValue) : Prop :=
  iv ≠ .genericDict ∧
    ∀ t ∈ iv.tensors, f t = .ok (fp t) ∧ (t.defined = true → (fp t).defined = true)

/-- The loop body succeeds on `iv` with some result. -/
def ProcOk (f : Tensor → Except Err Tensor) (iv : IValue) : Prop :=
  ∃ iv', processIValue f iv = .ok iv'

/-- Pure image of the `unwrap` lambda of the back fallback (defined for
tensors whose wrapper level does not exceed the current level). -/
def backUnwrapPure (cur_level : Nat) (tensor : Tensor) : Tensor :=
  if ¬ tensor.defined then tensor
  else
    match tensor with
    | .grad lvl a m inner => if lvl = cur_level then inner else .grad lvl a m inner
    | t => t

/-- Pure image of the `wrap` lambda of the back fallback. -/
def backWrapPure (cur_level : Nat) (tensor : Tensor) : Tensor :=
  if ¬ tensor.defined then tensor else makeTensorWrapper tensor cur_level

/-- Pure image of the front interceptor's per-tensor normalization
(`maybeTransformGradWrappers`), defined for tensors whose wrapper levels do
not exceed the current level. -/
def gradTransformPure (dynlayerStack : List DynamicLayer) (t : Tensor) : Tensor :=
  let u := unwrapIfDead t
  if ¬ u.defined then u
  else
    match dynlayerStack.getLast? with
    | none => u
    | some top =>
      if top.key ≠ .Autograd then u
      else
        match maybeGetTensorWrapper u with
        | none => makeTensorWrapper u top.layerId
        | some w =>
          if w.wrapperLevel = top.layerId then u else makeTensorWrapper u top.layerId

/-- The well-formedness a tensor argument needs for the normalization pass to
run without a fatal assert and preserve definedness: an alive wrapper sits at
or below the current level, and a dead wrapper hides a defined inner value
whose own wrapper (if any) sits at or below the current level. -/
def gradArgOk (cur_level : Nat) : Tensor → Bool
  | .grad lvl true _ _ => lvl ≤ cur_level
  | .grad _ false _ inner =>
    inner.defined &&
      (match inner with | .grad l2 _ _ _ => l2 ≤ cur_level | _ => true)
  | _ => true

/-- Does the value's top wrapper exist and carry exactly this level (for
stating the mutation-safety condition). -/
def wrappedAtLevel (t : Tensor) (lvl : Nat) : Bool :=
  match maybeGetTensorWrapper t with
  | some u => u.wrapperLevel = lvl
  | none => false

/-- The stack levels are exactly `1, 2, …, size`, bottom to top — the spec's
Layer Stack invariant. -/
abbrev stackWF (stack : List DynamicLayer) : Prop :=
  stack.map (fun l => l.layerId) = List.range' 1 stack.length

/-- Every layer on the stack has a liveness cell inside the store holding
true — the state invariant backing the liveness-flip behaviour of pop. -/
abbrev cellsWF (st : FTState) : Prop :=
  ∀ l ∈ st.dynamicLayerStack, st.cells[l.lifeCell]? = some true

/-! # Theorems -/

theorem processListElems_ok (f : Tensor → Except Err Tensor) (fp : Tensor → Tensor)
    (elts : List ListElem) (h : ∀ t, ListElem.tensor t ∈ elts → f t = .ok (fp t)) :
    processListElems f elts =
      .ok (elts.map (fun e => match e with | .tensor t => .tensor (fp t) | _ => e)) := by
  induction elts with
  | nil => rfl
  | cons e rest ih =>
    have hr := ih (fun u hu => h u (List.mem_cons_of_mem _ hu))
    cases e with
    | tensor t =>
      have ht := h t (List.mem_cons_self _ _)
      simp [processListElems, ht, hr]
    | other n =>
      simp [processListElems, hr]

theorem mapTensors_ok (f : Tensor → Except Err Tensor) (fp : Tensor → Tensor)
    (ts : List Tensor) (h : ∀ t ∈ ts, f t = .ok (fp t)) :
    mapTensors f ts = .ok (ts.map fp) := by
  induction ts with
  | nil => rfl
  | cons t rest ih =>
    have ht := h t (List.mem_cons_self _ _)
    have hr := ih (fun u hu => h u (List.mem_cons_of_mem _ hu))
    simp [mapTensors, ht, hr]

theorem processIValue_ok (f : Tensor → Except Err Tensor) (fp : Tensor → Tensor)
    (iv : IValue) (h : GoodAt f fp iv) :
    processIValue f iv = .ok (processIValuePure fp iv) := by
  obtain ⟨hdict, htens⟩ := h
  cases iv with
  | tensor t =>
    have ht := htens t (by simp [IValue.tensors])
    have hdef : ¬ (t.defined && !(fp t).defined) = true := by
      cases hd : t.defined with
      | false => simp [hd]
      | true => simp [hd, (ht.2 hd)]
    simp [processIValue, ht.1, processIValuePure, hdef]
  | tensorList ts =>
    have := mapTensors_ok f fp ts (fun t htm => (htens t (by simp [IValue.tensors, htm])).1)
    simp [processIValue, this, processIValuePure]
  | list elts =>
    have := processListElems_ok f fp elts (fun t htm => by
      refine (htens t ?_).1
      simp [IValue.tensors, List.mem_filterMap]
      exact ⟨.tensor t, htm, rfl⟩)
    simp [processIValue, this, processIValuePure]
  | genericDict => exact absurd rfl hdict
  | scalar n => simp [processIValue, processIValuePure]

theorem foreachGo_ok (f : Tensor → Except Err Tensor) (fp : Tensor → Tensor) :
    ∀ (fuel idx : Nat) (args : List IValue), idx + fuel ≤ args.length →
    (∀ (i : Nat) iv, idx ≤ i → i < idx + fuel → args[i]? = some iv → GoodAt f fp iv) →
    ∃ res, foreachGo f fuel args idx = .ok res ∧
      res.length = args.length ∧
      (∀ i : Nat, (i < idx ∨ idx + fuel ≤ i) → res[i]? = args[i]?) ∧
      (∀ (i : Nat) iv, idx ≤ i → i < idx + fuel → args[i]? = some iv →
        res[i]? = some (processIValuePure fp iv)) := by
  intro fuel
  induction fuel with
  | zero =>
    intro idx args _he _hgood
    exact ⟨args, rfl, rfl, fun i _ => rfl, fun i iv h1 h2 _ => absurd h2 (by omega)⟩
  | succ k ih =>
    intro idx args he hgood
    have hidx : idx < args.length := by omega
    obtain ⟨iv, hiv⟩ : ∃ iv, args[idx]? = some iv :=
      ⟨args[idx], List.getElem?_eq_getElem hidx⟩
    have hproc := processIValue_ok f fp iv (hgood idx iv (le_refl _) (by omega) hiv)
    have hstep : foreachGo f (k + 1) args idx =
        foreachGo f k (args.set idx (processIValuePure fp iv)) (idx + 1) := by
      rw [foreachGo]
      simp [hiv, hproc]
    obtain ⟨res, hres, hlen, hout, hin⟩ :=
      ih (idx + 1) (args.set idx (processIValuePure fp iv))
        (by simp [List.length_set]; omega)
        (by
          intro i jv h1 h2 hj
          have hne : idx ≠ i := by omega
          rw [List.getElem?_set_ne hne] at hj
          exact hgood i jv (by omega) (by omega) hj)
    refine ⟨res, by rw [hstep]; exact hres, by simp [List.length_set] at hlen; exact hlen, ?_, ?_⟩
    · intro i hi
      have hne : idx ≠ i := by omega
      rw [hout i (by omega), List.getElem?_set_ne hne]
    · intro i jv h1 h2 hj
      rcases Nat.eq_or_lt_of_le h1 with heq | hlt2
      · subst heq
        rw [hiv] at hj
        cases hj
        rw [hout idx (by omega), List.getElem?_set_eq_of_lt _ hidx]
      · have hne : idx ≠ i := by omega
        exact hin i jv (by omega) (by omega) (by rw [List.getElem?_set_ne hne]; exact hj)

theorem mem_of_getElem_opt {α : Type} (l : List α) (n : Nat) (a : α) (h : l[n]? = some a) :
    a ∈ l := by
  obtain ⟨hlt, rfl⟩ := List.getElem?_eq_some.mp h
  exact List.getElem_mem hlt

/-- The call pattern every source call site of `foreachTensorInplace` uses:
process the final `slice.length` slots of `pre ++ slice`.  When the loop body
behaves like `fp` on the slice, the result is `pre` followed by the pointwise
image of `slice`. -/
theorem foreachTensorInplace_append_ok (f : Tensor → Except Err Tensor)
    (fp : Tensor → Tensor) (pre slice : List IValue)
    (hgood : ∀ iv ∈ slice, GoodAt f fp iv) :
    foreachTensorInplace (pre ++ slice)
      (((pre ++ slice).length : Int) - slice.length) ((pre ++ slice).length : Int) f
      = .ok (pre ++ slice.map (processIValuePure fp)) := by
  have hlen : (pre ++ slice).length = pre.length + slice.length := by simp
  have hb : ((pre ++ slice).length : Int) - slice.length = (pre.length : Int) := by
    simp [hlen]
  rw [foreachTensorInplace, hb]
  have hcond : ¬ ((pre.length : Int) < 0 ∨ ((pre ++ slice).length : Int) < 0 ∨
      ¬ (pre.length : Int) ≤ ((pre ++ slice).length : Int)) := by
    simp [hlen]
    omega
  rw [if_neg hcond]
  have htn1 : ((pre.length : Int)).toNat = pre.length := by simp
  have htn2 : (((pre ++ slice).length : Int)).toNat = (pre ++ slice).length := by omega
  rw [htn1, htn2]
  obtain ⟨res, hres, hreslen, hout, hin⟩ :=
    foreachGo_ok f fp ((pre ++ slice).length - pre.length) pre.length
      (pre ++ slice) (by omega)
      (by
        intro i iv h1 h2 hi
        rw [List.getElem?_append_right h1] at hi
        exact hgood iv (mem_of_getElem_opt _ _ _ hi))
  rw [hres]
  congr 1
  apply List.ext_getElem?
  intro n
  by_cases hn1 : n < pre.length
  · rw [hout n (Or.inl hn1), List.getElem?_append_left hn1, List.getElem?_append_left hn1]
  · by_cases hn2 : n < (pre ++ slice).length
    · have hs : n - pre.length < slice.length := by omega
      obtain ⟨iv, hiv⟩ : ∃ iv, (pre ++ slice)[n]? = some iv :=
        ⟨(pre ++ slice)[n], List.getElem?_eq_getElem hn2⟩
      rw [hin n iv (by omega) (by omega) hiv]
      rw [List.getElem?_append_right (by omega : pre.length ≤ n)] at hiv
      rw [List.getElem?_append_right (by omega : pre.length ≤ n), List.getElem?_map, hiv]
      rfl
    · rw [List.getElem?_eq_none (by omega : res.length ≤ n),
        List.getElem?_eq_none
          (by simp [hlen] at hn2 ⊢; omega :
            (pre ++ slice.map (processIValuePure fp)).length ≤ n)]

/-- If every slot before position `j` succeeds and the slot at `j` faults, the
loop faults with that error. -/
theorem foreachGo_error (f : Tensor → Except Err Tensor) :
    ∀ (fuel idx : Nat) (args : List IValue) (j : Nat) (jv : IValue) (err : Err),
      idx ≤ j → j < idx + fuel → idx + fuel ≤ args.length →
      (∀ (i : Nat) iv, idx ≤ i → i < j → args[i]? = some iv → ProcOk f iv) →
      args[j]? = some jv → processIValue f jv = .error err →
      foreachGo f fuel args idx = .error err := by
  intro fuel
  induction fuel with
  | zero =>
    intro idx args j jv err h1 h2 he hok hj herr
    omega
  | succ k ih =>
    intro idx args j jv err h1 h2 he hok hj herr
    rcases Nat.eq_or_lt_of_le h1 with heq | hlt
    · subst heq
      rw [foreachGo]
      simp [hj, herr]
    · have hidx : idx < args.length := by omega
      obtain ⟨iv, hiv⟩ : ∃ iv, args[idx]? = some iv :=
        ⟨args[idx], List.getElem?_eq_getElem hidx⟩
      obtain ⟨iv', hiv'⟩ := hok idx iv (le_refl _) (by omega) hiv
      have hstep : foreachGo f (k + 1) args idx
          = foreachGo f k (args.set idx iv') (idx + 1) := by
        rw [foreachGo]
        simp [hiv, hiv']
      rw [hstep]
      refine ih (idx + 1) (args.set idx iv') j jv err (by omega) (by omega)
        (by simp [List.length_set]; omega) ?_ ?_ herr
      · intro i u hi1 hi2 hu
        rw [List.getElem?_set_ne (by omega : idx ≠ i)] at hu
        exact hok i u (by omega) hi2 hu
      · rw [List.getElem?_set_ne (by omega : idx ≠ j)]
        exact hj

theorem range'_pairwise_lt : ∀ (n s : Nat), (List.range' s n).Pairwise (· < ·) := by
  intro n
  induction n with
  | zero => intro s; simp
  | succ n ih =>
    intro s
    rw [List.range'_succ]
    refine List.Pairwise.cons ?_ (ih (s + 1))
    intro b hb
    rw [List.mem_range'] at hb
    obtain ⟨i, hi, rfl⟩ := hb
    omega

/-- Successful `initAndPushDynamicLayer`: the assigned level is `1 + depth` and
the new stack is the old stack with the new descriptor appended (its liveness
cell freshly allocated at the end of the cell store). -/
theorem initAndPush_stack (key : DispatchKey) (bs : Option Nat) (pgm : Option Bool)
    (st : FTState) (lvl : Nat) (st' : FTState)
    (h : initAndPushDynamicLayer key bs pgm st = .ok (lvl, st')) :
    lvl = 1 + st.dynamicLayerStack.length ∧
    st'.dynamicLayerStack = st.dynamicLayerStack ++
      [⟨key, 1 + st.dynamicLayerStack.length, bs, pgm, st.cells.length⟩] ∧
    st'.cells = st.cells ++ [true] := by
  rw [initAndPushDynamicLayer, pushDynamicLayer] at h
  by_cases hemp : st.dynamicLayerStack.isEmpty <;>
    simp only [hemp, ite_true, ite_false] at h <;>
    repeat' split at h
  all_goals
    first
      | exact Except.noConfusion h
      | (simp only [Except.ok.injEq, Prod.mk.injEq] at h
         obtain ⟨h1, h2⟩ := h
         subst h1
         subst h2
         simp_all)

/-- Failed `pushDynamicLayer`: a descriptor whose level differs from
`1 + depth` is fatally rejected before any mutation. -/
theorem pushDynamicLayer_mismatch (dl : DynamicLayer) (st : FTState)
    (h : dl.layerId ≠ 1 + st.dynamicLayerStack.length) :
    pushDynamicLayer dl st = .error .fatal := by
  have h2 : 1 + st.dynamicLayerStack.length ≠ dl.layerId := fun hh => h hh.symm
  simp [pushDynamicLayer, h2]

/-- C2: for every push onto the Layer Stack the assigned level is
`1 + (depth before the push)`; consequently, on a well-formed stack the levels
read bottom-to-top are `1, …, size`, strictly increasing, with the top level
equal to the stack size; and a push whose descriptor carries any other level
is a fatal contract violation. -/
theorem C2_push_level_contract :
    (∀ (st : FTState) (key : DispatchKey) (bs : Option Nat) (pgm : Option Bool)
        (lvl : Nat) (st2 : FTState),
        initAndPushDynamicLayer key bs pgm st = .ok (lvl, st2) →
        lvl = 1 + st.dynamicLayerStack.length ∧
        st2.dynamicLayerStack.map (fun l => l.layerId)
          = st.dynamicLayerStack.map (fun l => l.layerId) ++ [lvl] ∧
        (stackWF st.dynamicLayerStack →
          stackWF st2.dynamicLayerStack ∧
          (st2.dynamicLayerStack.map (fun l => l.layerId)).Pairwise (· < ·) ∧
          st2.dynamicLayerStack.getLast?.map (fun l => l.layerId)
            = some st2.dynamicLayerStack.length)) ∧
    (∀ (dl : DynamicLayer) (st : FTState),
        dl.layerId ≠ 1 + st.dynamicLayerStack.length →
        pushDynamicLayer dl st = .error .fatal) := by
  constructor
  · intro st key bs pgm lvl st2 h
    obtain ⟨h1, h2, _h3⟩ := initAndPush_stack key bs pgm st lvl st2 h
    subst h1
    refine ⟨rfl, by simp [h2], ?_⟩
    intro hwf
    have hmap : st2.dynamicLayerStack.map (fun l => l.layerId)
        = List.range' 1 (st.dynamicLayerStack.length + 1) := by
      rw [h2]
      rw [List.range'_concat]
      simp only [List.map_append, List.map_cons, List.map_nil]
      rw [hwf]
      simp [Nat.add_comm]
    have hlen : st2.dynamicLayerStack.length = st.dynamicLayerStack.length + 1 := by
      simp [h2]
    refine ⟨?_, ?_, ?_⟩
    · rw [stackWF, hmap, hlen]
    · rw [hmap]
      exact range'_pairwise_lt _ _
    · rw [h2]
      simp [Nat.add_comm]
  · intro dl st h
    exact pushDynamicLayer_mismatch dl st h

/-- Witness for C2 at concrete inputs: a successful push onto the empty stack
assigns level 1, and a push carrying level 5 onto the empty stack is fatal. -/
theorem C2_push_level_contract_witness :
    (initAndPushDynamicLayer DispatchKey.Autograd none (some true)
        ⟨[], some {}, {}, true, []⟩
      = .ok (1, ⟨[⟨DispatchKey.Autograd, 1, none, some true, 0⟩], some {},
          ⟨{ frontMode := true, backMode := true }, {}⟩, true, [true]⟩)) ∧
    (1 = 1 + ([] : List DynamicLayer).length ∧
      stackWF [(⟨DispatchKey.Autograd, 1, none, some true, 0⟩ : DynamicLayer)]) ∧
    ((⟨DispatchKey.Autograd, 5, none, some true, 0⟩ : DynamicLayer).layerId
        ≠ 1 + (⟨[], some {}, {}, true, []⟩ : FTState).dynamicLayerStack.length ∧
      pushDynamicLayer ⟨DispatchKey.Autograd, 5, none, some true, 0⟩
        ⟨[], some {}, {}, true, []⟩ = .error .fatal) := by
  refine ⟨by rfl, ⟨?_, ?_⟩, by decide, ?_⟩
  · exact (C2_push_level_contract.1 ⟨[], some {}, {}, true, []⟩
      DispatchKey.Autograd none (some true) 1 _ (by rfl)).1
  · exact ((C2_push_level_contract.1 ⟨[], some {}, {}, true, []⟩
      DispatchKey.Autograd none (some true) 1 _ (by rfl)).2.2 (by decide)).1
  · exact C2_push_level_contract.2 ⟨DispatchKey.Autograd, 5, none, some true, 0⟩
      ⟨[], some {}, {}, true, []⟩ (by decide)

/-- Successful `popDynamicLayerAndDeleteMetadata` on a non-empty stack,
fully characterized. -/
theorem popAndDelete_ok (st : FTState) (base : List DynamicLayer) (layer : DynamicLayer)
    (hstack : st.dynamicLayerStack = base ++ [layer]) (hkey : layer.key ≠ .Undefined) :
    popDynamicLayerAndDeleteMetadata st = .ok (layer,
      { st with
        dynamicLayerStack := base,
        prevLocalKeyset := if base.isEmpty then none else st.prevLocalKeyset,
        tls := if base.isEmpty then setDynamicLayerFrontBackKeysIncluded false st.tls
          else st.tls,
        cells := st.cells.set layer.lifeCell false }) := by
  by_cases hb : base.isEmpty <;>
    simp [popDynamicLayerAndDeleteMetadata, popDynamicLayer, hstack, hkey, hb]

/-- C7: `pop` (the metadata-deleting pop) removes and returns the top
descriptor; pop on an empty stack is fatal; it writes false into exactly the
popped descriptor's liveness cell (a flip from true under the state invariant,
and a false cell never flips back under any stack operation — the temporary
pop of the back interceptor does not touch the cells at all); and on the
transition to an empty stack the saved snapshot is cleared and the front/back
interception keys are dropped from the thread-local included set. -/
theorem C7_pop_contract :
    (∀ st : FTState, st.dynamicLayerStack = [] →
      popDynamicLayerAndDeleteMetadata st = .error .fatal) ∧
    (∀ (st : FTState) (base : List DynamicLayer) (layer : DynamicLayer),
      st.dynamicLayerStack = base ++ [layer] → layer.key ≠ .Undefined →
      ∃ st2, popDynamicLayerAndDeleteMetadata st = .ok (layer, st2) ∧
        st2.dynamicLayerStack = base ∧
        (cellsWF st → st.cells[layer.lifeCell]? = some true ∧
          st2.cells[layer.lifeCell]? = some false) ∧
        (∀ i : Nat, i ≠ layer.lifeCell → st2.cells[i]? = st.cells[i]?) ∧
        (∀ i : Nat, st.cells[i]? = some false → st2.cells[i]? = some false) ∧
        (base = [] → st2.prevLocalKeyset = none ∧
          st2.tls.included.frontMode = false ∧ st2.tls.included.backMode = false)) ∧
    (∀ (st s1 : FTState) (l : DynamicLayer),
      popDynamicLayer st = .ok (l, s1) → s1.cells = st.cells) ∧
    (∀ (key : DispatchKey) (bs : Option Nat) (pgm : Option Bool) (st : FTState)
        (lvl : Nat) (st2 : FTState), initAndPushDynamicLayer key bs pgm st = .ok (lvl, st2) →
      ∀ i : Nat, st.cells[i]? = some false → st2.cells[i]? = some false) := by
  refine ⟨?_, ?_, ?_, ?_⟩
  · intro st h
    simp [popDynamicLayerAndDeleteMetadata, popDynamicLayer, h]
  · intro st base layer hstack hkey
    refine ⟨_, popAndDelete_ok st base layer hstack hkey, rfl, ?_, ?_, ?_, ?_⟩
    · intro hwf
      have htrue : st.cells[layer.lifeCell]? = some true := by
        apply hwf
        rw [hstack]
        simp
      have hlt : layer.lifeCell < st.cells.length :=
        (List.getElem?_eq_some.mp htrue).1
      exact ⟨htrue, by simp [List.getElem?_set_eq_of_lt false hlt]⟩
    · intro i hne
      simp [List.getElem?_set_ne (fun hh => hne hh.symm)]
    · intro i hfalse
      by_cases hic : layer.lifeCell = i
      · subst hic
        have hlt : layer.lifeCell < st.cells.length :=
          (List.getElem?_eq_some.mp hfalse).1
        simp [List.getElem?_set_eq_of_lt false hlt]
      · simp [List.getElem?_set_ne hic, hfalse]
    · intro hbase
      subst hbase
      simp [setDynamicLayerFrontBackKeysIncluded]
  · intro st s1 l h
    rw [popDynamicLayer] at h
    split at h
    · exact Except.noConfusion h
    · split at h
      · exact Except.noConfusion h
      · by_cases hb : st.dynamicLayerStack.dropLast.isEmpty <;>
          simp only [hb, Bool.false_eq_true, ite_true, ite_false,
            Except.ok.injEq, Prod.mk.injEq] at h <;>
          (obtain ⟨h1, h2⟩ := h
           subst h2
           rfl)
  · intro key bs pgm st lvl st2 h i hfalse
    obtain ⟨_, _, hcells⟩ := initAndPush_stack key bs pgm st lvl st2 h
    rw [hcells]
    have hlt : i < st.cells.length := (List.getElem?_eq_some.mp hfalse).1
    rw [List.getElem?_append_left hlt]
    exact hfalse

/-- Witness for C7 at concrete inputs: popping the single Autograd layer of a
one-layer stack. -/
theorem C7_pop_contract_witness :
    ((⟨[], some {}, {}, true, [true]⟩ : FTState).dynamicLayerStack = [] ∧
      popDynamicLayerAndDeleteMetadata ⟨[], some {}, {}, true, [true]⟩ = .error .fatal) ∧
    ((⟨[⟨DispatchKey.Autograd, 1, none, some true, 0⟩], some {},
        ⟨{ frontMode := true, backMode := true }, {}⟩, true, [true]⟩ : FTState).dynamicLayerStack
        = [] ++ [⟨DispatchKey.Autograd, 1, none, some true, 0⟩] ∧
      (⟨DispatchKey.Autograd, 1, none, some true, 0⟩ : DynamicLayer).key ≠ .Undefined ∧
      popDynamicLayerAndDeleteMetadata
        ⟨[⟨DispatchKey.Autograd, 1, none, some true, 0⟩], some {},
          ⟨{ frontMode := true, backMode := true }, {}⟩, true, [true]⟩
        = .ok (⟨DispatchKey.Autograd, 1, none, some true, 0⟩,
            ⟨[], none, ⟨{}, {}⟩, true, [false]⟩)) := by
  refine ⟨⟨rfl, ?_⟩, rfl, by decide, ?_⟩
  · exact C7_pop_contract.1 ⟨[], some {}, {}, true, [true]⟩ rfl
  · have := popAndDelete_ok
      ⟨[⟨DispatchKey.Autograd, 1, none, some true, 0⟩], some {},
        ⟨{ frontMode := true, backMode := true }, {}⟩, true, [true]⟩
      [] ⟨DispatchKey.Autograd, 1, none, some true, 0⟩ rfl (by decide)
    obtain ⟨st2, hok, -⟩ := C7_pop_contract.2.1
      ⟨[⟨DispatchKey.Autograd, 1, none, some true, 0⟩], some {},
        ⟨{ frontMode := true, backMode := true }, {}⟩, true, [true]⟩
      [] ⟨DispatchKey.Autograd, 1, none, some true, 0⟩ rfl (by decide)
    rw [hok] at this ⊢
    simp only [Except.ok.injEq, Prod.mk.injEq] at this
    rw [this.2]
    rfl

/-- The mutation-safety check on an in-place op under an Autograd top layer,
characterized by the wrapper of the (dead-unwrapped) first argument. -/
theorem checkMutation_cases (schema : FunctionSchema) (vstack : List IValue)
    (base : List DynamicLayer) (layer : DynamicLayer) (t : Tensor)
    (hkey : layer.key = .Autograd) (hinplace : isInplaceOp schema = true)
    (hlen : schema.arguments.length ≤ vstack.length)
    (hhead : (vstack.drop (vstack.length - schema.arguments.length)).head?
      = some (.tensor t)) :
    checkForInvalidMutationOnCaptures schema vstack (base ++ [layer]) =
      (if wrappedAtLevel (unwrapIfDead t) layer.layerId then .ok () else
        .error .mutationError) := by
  simp only [checkForInvalidMutationOnCaptures, List.getLast?_concat]
  rw [if_neg (by simp [hkey]), if_neg (by simp [hinplace]),
    if_neg (Nat.not_lt.mpr hlen), hhead]
  cases hw : maybeGetTensorWrapper (unwrapIfDead t) with
  | none => simp [wrappedAtLevel, hw]
  | some u => by_cases hl : u.wrapperLevel = layer.layerId <;> simp [wrappedAtLevel, hw, hl]

/-- C1: on a non-empty stack whose top layer is Autograd, for an in-place
schema whose first argument (after unwrapping a dead wrapper) is not wrapped
at exactly the top layer's level, the front interceptor fails with the
user-facing mutation error before the operation executes (the result is
independent of the call oracle) and the whole state — in particular the Layer
Stack — is returned exactly as it was; when the first argument is wrapped at
exactly the top level, the mutation check passes. -/
theorem C1_mutation_safety :
    ∀ (schema : FunctionSchema) (st : FTState) (vstack : List IValue)
      (base : List DynamicLayer) (layer : DynamicLayer) (t : Tensor),
      st.dynamicLayerStack = base ++ [layer] → layer.key = .Autograd →
      isInplaceOp schema = true →
      schema.arguments.length ≤ vstack.length →
      (vstack.drop (vstack.length - schema.arguments.length)).head?
        = some (.tensor t) →
      (wrappedAtLevel (unwrapIfDead t) layer.layerId = false →
        ∀ g : CallOracle,
          dynamicLayerFrontFallback schema st vstack g = (st, vstack, some .mutationError)) ∧
      (wrappedAtLevel (unwrapIfDead t) layer.layerId = true →
        checkForInvalidMutationOnCaptures schema vstack st.dynamicLayerStack = .ok ()) := by
  intro schema st vstack base layer t hstack hkey hinplace hlen hhead
  have hcheck := checkMutation_cases schema vstack base layer t hkey hinplace hlen hhead
  constructor
  · intro hw g
    rw [dynamicLayerFrontFallback]
    rw [if_neg (by simp [hstack])]
    rw [hstack, hcheck, if_neg (by simp [hw])]
  · intro hw
    rw [hstack, hcheck, if_pos (by simp [hw])]

/-- Witness for C1 at concrete inputs: an in-place op on a plain tensor under
a single Autograd layer raises the mutation error and leaves the state
untouched; the same op on a tensor wrapped at the current level passes the
check. -/
theorem C1_mutation_safety_witness :
    ((⟨[⟨DispatchKey.Autograd, 1, none, some true, 0⟩], some {}, {}, true,
        [true]⟩ : FTState).dynamicLayerStack
      = [] ++ [⟨DispatchKey.Autograd, 1, none, some true, 0⟩] ∧
      isInplaceOp ⟨true, [⟨some ⟨true⟩⟩], [⟨some ⟨true⟩⟩]⟩ = true ∧
      wrappedAtLevel (unwrapIfDead (.base 0 3)) 1 = false ∧
      wrappedAtLevel (unwrapIfDead (.grad 1 true 3 (.base 0 3))) 1 = true) ∧
    dynamicLayerFrontFallback ⟨true, [⟨some ⟨true⟩⟩], [⟨some ⟨true⟩⟩]⟩
        ⟨[⟨DispatchKey.Autograd, 1, none, some true, 0⟩], some {}, {}, true, [true]⟩
        [.tensor (.base 0 3)] (fun s v => (s, v, none))
      = (⟨[⟨DispatchKey.Autograd, 1, none, some true, 0⟩], some {}, {}, true, [true]⟩,
          [.tensor (.base 0 3)], some .mutationError) ∧
    checkForInvalidMutationOnCaptures ⟨true, [⟨some ⟨true⟩⟩], [⟨some ⟨true⟩⟩]⟩
        [.tensor (.grad 1 true 3 (.base 0 3))]
        (⟨[⟨DispatchKey.Autograd, 1, none, some true, 0⟩], some {}, {}, true,
          [true]⟩ : FTState).dynamicLayerStack
      = .ok () := by
  refine ⟨by decide, ?_, ?_⟩
  · exact (C1_mutation_safety ⟨true, [⟨some ⟨true⟩⟩], [⟨some ⟨true⟩⟩]⟩
      ⟨[⟨DispatchKey.Autograd, 1, none, some true, 0⟩], some {}, {}, true, [true]⟩
      [.tensor (.base 0 3)] [] ⟨DispatchKey.Autograd, 1, none, some true, 0⟩
      (.base 0 3) rfl rfl (by decide) (by decide) (by decide)).1 (by decide)
      (fun s v => (s, v, none))
  · exact (C1_mutation_safety ⟨true, [⟨some ⟨true⟩⟩], [⟨some ⟨true⟩⟩]⟩
      ⟨[⟨DispatchKey.Autograd, 1, none, some true, 0⟩], some {}, {}, true, [true]⟩
      [.tensor (.grad 1 true 3 (.base 0 3))] [] ⟨DispatchKey.Autograd, 1, none, some true, 0⟩
      (.grad 1 true 3 (.base 0 3)) rfl rfl (by decide) (by decide) (by decide)).2 (by decide)

/-- On a well-formed tensor the per-tensor normalization of the front
interceptor succeeds, computes its pure image, and preserves definedness. -/
theorem maybeTransform_ok (base : List DynamicLayer) (layer : DynamicLayer) (t : Tensor)
    (hwf : gradArgOk layer.layerId t = true) :
    maybeTransformGradWrappers (base ++ [layer]) t
      = .ok (gradTransformPure (base ++ [layer]) t) ∧
    (t.defined = true → (gradTransformPure (base ++ [layer]) t).defined = true) := by
  have hlast : (base ++ [layer]).getLast? = some layer := by simp
  cases t with
  | undef =>
    simp [maybeTransformGradWrappers, unwrapIfDead, maybeGetTensorWrapper,
      materializeGradWrappers, gradTransformPure, Tensor.defined]
  | base i sz =>
    by_cases hk : layer.key = .Autograd <;>
      simp [maybeTransformGradWrappers, unwrapIfDead, maybeGetTensorWrapper,
        materializeGradWrappers, gradTransformPure, Tensor.defined, hlast, hk,
        makeTensorWrapper]
  | batched lvl bd inner =>
    by_cases hk : layer.key = .Autograd <;>
      simp [maybeTransformGradWrappers, unwrapIfDead, maybeGetTensorWrapper,
        materializeGradWrappers, gradTransformPure, Tensor.defined, hlast, hk,
        makeTensorWrapper]
  | grad lvl alive m inner =>
    cases alive with
    | true =>
      simp only [gradArgOk, decide_eq_true_eq] at hwf
      by_cases hk : layer.key = .Autograd <;>
        by_cases hl : lvl = layer.layerId <;>
        simp [maybeTransformGradWrappers, unwrapIfDead, maybeGetTensorWrapper,
          materializeGradWrappers, gradTransformPure, Tensor.defined, hlast, hk, hl,
          makeTensorWrapper, Tensor.wrapperLevel, hwf]
    | false =>
      simp only [gradArgOk, Bool.and_eq_true, decide_eq_true_eq] at hwf
      obtain ⟨hdef, hlev⟩ := hwf
      cases inner with
      | undef => simp [Tensor.defined] at hdef
      | base i sz =>
        by_cases hk : layer.key = .Autograd <;>
          simp [maybeTransformGradWrappers, unwrapIfDead, maybeGetTensorWrapper,
            materializeGradWrappers, gradTransformPure, Tensor.defined, hlast, hk,
            makeTensorWrapper]
      | batched l2 bd inner2 =>
        by_cases hk : layer.key = .Autograd <;>
          simp [maybeTransformGradWrappers, unwrapIfDead, maybeGetTensorWrapper,
            materializeGradWrappers, gradTransformPure, Tensor.defined, hlast, hk,
            makeTensorWrapper]
      | grad l2 a2 m2 inner2 =>
        simp only [decide_eq_true_eq] at hlev
        by_cases hk : layer.key = .Autograd <;>
          by_cases hl : l2 = layer.layerId <;>
          simp [maybeTransformGradWrappers, unwrapIfDead, maybeGetTensorWrapper,
            materializeGradWrappers, gradTransformPure, Tensor.defined, hlast, hk, hl,
            makeTensorWrapper, Tensor.wrapperLevel, hlev]

/-- C3: during the front interceptor's argument-normalization pass on a
non-empty stack, a dead-wrapped tensor is replaced by its inner value and any
other tensor is kept; the pass then materializes grad wrappers exactly when
the top layer is Differentiation (Autograd): a tensor with no wrapper, or with
a wrapper below the current level, gets a fresh wrapper at the top layer's
level, a tensor already wrapped at the current level passes through unchanged
(never double-wrapped), and under a non-Autograd top layer nothing is wrapped;
the pass runs over every tensor of the argument slice, including the tensors
inside ordered lists, and fatally rejects keyed collections. -/
theorem C3_argument_normalization :
    ∀ (base : List DynamicLayer) (layer : DynamicLayer),
      (∀ (lvl m : Nat) (inner : Tensor), unwrapIfDead (.grad lvl false m inner) = inner) ∧
      (∀ (lvl m : Nat) (inner : Tensor),
        unwrapIfDead (.grad lvl true m inner) = .grad lvl true m inner) ∧
      (∀ t : Tensor, maybeGetTensorWrapper t = none → unwrapIfDead t = t) ∧
      (∀ t : Tensor, maybeTransformGradWrappers (base ++ [layer]) t
        = materializeGradWrappers (unwrapIfDead t) (base ++ [layer])) ∧
      (layer.key ≠ .Autograd → ∀ t : Tensor,
        materializeGradWrappers t (base ++ [layer]) = .ok t) ∧
      (layer.key = .Autograd → ∀ t : Tensor, t.defined = true →
        maybeGetTensorWrapper t = none →
        materializeGradWrappers t (base ++ [layer])
          = .ok (.grad layer.layerId true t.sizes t)) ∧
      (layer.key = .Autograd → ∀ (lvl : Nat) (a : Bool) (m : Nat) (inner : Tensor),
        lvl < layer.layerId →
        materializeGradWrappers (.grad lvl a m inner) (base ++ [layer])
          = .ok (.grad layer.layerId true m (.grad lvl a m inner))) ∧
      (layer.key = .Autograd → ∀ (a : Bool) (m : Nat) (inner : Tensor),
        materializeGradWrappers (.grad layer.layerId a m inner) (base ++ [layer])
          = .ok (.grad layer.layerId a m inner)) ∧
      (∀ (pre args : List IValue),
        (∀ iv ∈ args, iv ≠ .genericDict ∧
          ∀ t ∈ iv.tensors, gradArgOk layer.layerId t = true) →
        foreachTensorInplace (pre ++ args)
          (((pre ++ args).length : Int) - args.length) ((pre ++ args).length : Int)
          (maybeTransformGradWrappers (base ++ [layer]))
          = .ok (pre ++
              args.map (processIValuePure (gradTransformPure (base ++ [layer]))))) ∧
      (processIValue (maybeTransformGradWrappers (base ++ [layer])) .genericDict
        = .error .fatal) := by
  intro base layer
  have hlast : (base ++ [layer]).getLast? = some layer := by simp
  refine ⟨?_, ?_, ?_, ?_, ?_, ?_, ?_, ?_, ?_, rfl⟩
  · intro lvl m inner
    rfl
  · intro lvl m inner
    rfl
  · intro t h
    rw [unwrapIfDead, h]
  · intro t
    rfl
  · intro hk t
    cases t <;> simp [materializeGradWrappers, Tensor.defined, hlast, hk]
  · intro hk t hdef hnone
    cases t <;>
      simp_all [materializeGradWrappers, Tensor.defined, hlast, hk,
        maybeGetTensorWrapper, makeTensorWrapper, Tensor.sizes]
  · intro hk lvl a m inner hlt
    simp [materializeGradWrappers, Tensor.defined, hlast, hk, maybeGetTensorWrapper,
      makeTensorWrapper, Tensor.sizes, Tensor.wrapperLevel, Nat.le_of_lt hlt,
      Nat.ne_of_lt hlt]
  · intro hk a m inner
    simp [materializeGradWrappers, Tensor.defined, hlast, hk, maybeGetTensorWrapper,
      Tensor.wrapperLevel]
  · intro pre args hargs
    apply foreachTensorInplace_append_ok
    intro iv hiv
    obtain ⟨hdict, htens⟩ := hargs iv hiv
    exact ⟨hdict, fun t ht => maybeTransform_ok base layer t (htens t ht)⟩

/-- Witness for C3 at concrete inputs: under an Autograd layer at level 2 the
pass unwraps a dead wrapper and wraps tensors (also inside an ordered list) at
level 2, leaving a level-2-wrapped tensor unchanged; under a Batched top layer
nothing is wrapped. -/
theorem C3_argument_normalization_witness :
    (unwrapIfDead (.grad 1 false 7 (.base 0 7)) = .base 0 7 ∧
      materializeGradWrappers (.base 0 7)
          [⟨DispatchKey.Autograd, 1, none, some true, 0⟩,
            ⟨DispatchKey.Autograd, 2, none, some true, 1⟩]
        = .ok (.grad 2 true 7 (.base 0 7)) ∧
      materializeGradWrappers (.grad 1 true 7 (.base 0 7))
          [⟨DispatchKey.Autograd, 1, none, some true, 0⟩,
            ⟨DispatchKey.Autograd, 2, none, some true, 1⟩]
        = .ok (.grad 2 true 7 (.grad 1 true 7 (.base 0 7))) ∧
      materializeGradWrappers (.grad 2 true 7 (.base 0 7))
          [⟨DispatchKey.Autograd, 1, none, some true, 0⟩,
            ⟨DispatchKey.Autograd, 2, none, some true, 1⟩]
        = .ok (.grad 2 true 7 (.base 0 7)) ∧
      materializeGradWrappers (.base 0 7) [⟨DispatchKey.Batched, 1, some 4, none, 0⟩]
        = .ok (.base 0 7)) ∧
    foreachTensorInplace
        [.scalar 9, .tensor (.base 0 7), .list [.tensor (.base 1 5), .other 3]]
        1 3
        (maybeTransformGradWrappers
          [⟨DispatchKey.Autograd, 1, none, some true, 0⟩,
            ⟨DispatchKey.Autograd, 2, none, some true, 1⟩])
      = .ok [.scalar 9, .tensor (.grad 2 true 7 (.base 0 7)),
          .list [.tensor (.grad 2 true 5 (.base 1 5)), .other 3]] := by
  have h := C3_argument_normalization
    [⟨DispatchKey.Autograd, 1, none, some true, 0⟩]
    ⟨DispatchKey.Autograd, 2, none, some true, 1⟩
  have hb := C3_argument_normalization [] ⟨DispatchKey.Batched, 1, some 4, none, 0⟩
  refine ⟨⟨h.1 1 7 (.base 0 7), ?_, ?_, ?_, ?_⟩, ?_⟩
  · exact h.2.2.2.2.2.1 rfl (.base 0 7) (by decide) (by decide)
  · exact h.2.2.2.2.2.2.1 rfl 1 true 7 (.base 0 7) (by decide)
  · exact h.2.2.2.2.2.2.2.1 rfl true 7 (.base 0 7)
  · exact hb.2.2.2.2.1 (by decide) (.base 0 7)
  · have := h.2.2.2.2.2.2.2.2.1 [.scalar 9]
      [.tensor (.base 0 7), .list [.tensor (.base 1 5), .other 3]]
      (by decide)
    simpa using this

/-- C6 counterexample: the Key-Set Router's computed exclude set for a
Batching layer does **not** contain the batching-interception capability —
`getIncludeExcludeSetsFor(kBatchedKey)` removes `kBatchedKey` from the exclude
set — refuting the claim that the computed capability sets exclude it. -/
theorem C6_counterexample :
    getIncludeExcludeSetsFor DispatchKey.Batched
      = .ok (({} : DispatchKeySet).add .VmapMode,
          (all_dynlayer_keyset.remove .BackMode).remove .Batched) ∧
    ((all_dynlayer_keyset.remove .BackMode).remove .Batched).has DispatchKey.Batched
      = false := ⟨rfl, by decide⟩

/-- C6 (amended): for a Batching top layer the router's include set contains
the vectorized-mode marker and its exclude set omits the batching-interception
capability (keeping the per-op batching kernels dispatchable) while excluding
the front-mode, grad-wrapper, inplace-view and autograd capabilities; the
front interceptor then adds the batching-interception capability to the
exclude set for a particular call exactly when no tensor argument is batched
at the current level. -/
theorem C6_batched_key_sets :
    (getIncludeExcludeSetsFor DispatchKey.Batched
      = .ok (({} : DispatchKeySet).add .VmapMode,
          (all_dynlayer_keyset.remove .BackMode).remove .Batched)) ∧
    ((({} : DispatchKeySet).add .VmapMode).has .VmapMode = true ∧
      (((all_dynlayer_keyset.remove .BackMode).remove .Batched)).has .Batched = false ∧
      (((all_dynlayer_keyset.remove .BackMode).remove .Batched)).has .FrontMode = true ∧
      (((all_dynlayer_keyset.remove .BackMode).remove .Batched)).has .GradWrapper = true ∧
      (((all_dynlayer_keyset.remove .BackMode).remove .Batched)).has .ADInplaceOrView
        = true ∧
      (((all_dynlayer_keyset.remove .BackMode).remove .Batched)).has .Autograd = true ∧
      (((all_dynlayer_keyset.remove .BackMode).remove .Batched)).has .BackMode = false) ∧
    (∀ (dynamicLayerStack : List DynamicLayer) (args : List IValue)
        (inc exc : DispatchKeySet),
      anyTensors args (batchedAtCurrentLevel dynamicLayerStack) = .ok false →
      frontKeySets .Batched dynamicLayerStack args = .ok (inc, exc) →
      exc.has .Batched = true) ∧
    (∀ (dynamicLayerStack : List DynamicLayer) (args : List IValue)
        (inc exc : DispatchKeySet),
      anyTensors args (batchedAtCurrentLevel dynamicLayerStack) = .ok true →
      frontKeySets .Batched dynamicLayerStack args = .ok (inc, exc) →
      exc.has .Batched = false) := by
  refine ⟨rfl, by decide, ?_, ?_⟩
  · intro stack args inc exc hany heq
    rw [frontKeySets] at heq
    simp only [getIncludeExcludeSetsFor, ite_true, ite_false, hany, Except.ok.injEq,
      Prod.mk.injEq, reduceIte, reduceCtorEq, Bool.false_eq_true, Bool.true_eq_false] at heq
    obtain ⟨h1, h2⟩ := heq
    subst h2
    decide
  · intro stack args inc exc hany heq
    rw [frontKeySets] at heq
    simp only [getIncludeExcludeSetsFor, ite_true, ite_false, hany, Except.ok.injEq,
      Prod.mk.injEq, reduceIte, reduceCtorEq, Bool.false_eq_true, Bool.true_eq_false] at heq
    obtain ⟨h1, h2⟩ := heq
    subst h2
    decide

/-- Witness for C6 at concrete inputs: with a single Batching layer, an
unbatched tensor argument leads to the batched key being added to the exclude
set, and a level-1-batched tensor argument keeps it out. -/
theorem C6_batched_key_sets_witness :
    (anyTensors [.tensor (.base 0 3)]
        (batchedAtCurrentLevel [⟨DispatchKey.Batched, 1, some 4, none, 0⟩]) = .ok false ∧
      frontKeySets .Batched [⟨DispatchKey.Batched, 1, some 4, none, 0⟩]
          [.tensor (.base 0 3)]
        = .ok (({} : DispatchKeySet).add .VmapMode,
            (((all_dynlayer_keyset.remove .BackMode).remove .Batched).add .Batched)) ∧
      ((((all_dynlayer_keyset.remove .BackMode).remove .Batched).add .Batched)).has
          .Batched = true) ∧
    (anyTensors [.tensor (.batched 1 0 (.base 0 3))]
        (batchedAtCurrentLevel [⟨DispatchKey.Batched, 1, some 4, none, 0⟩]) = .ok true ∧
      frontKeySets .Batched [⟨DispatchKey.Batched, 1, some 4, none, 0⟩]
          [.tensor (.batched 1 0 (.base 0 3))]
        = .ok (({} : DispatchKeySet).add .VmapMode,
            ((all_dynlayer_keyset.remove .BackMode).remove .Batched)) ∧
      (((all_dynlayer_keyset.remove .BackMode).remove .Batched)).has .Batched
        = false) := by
  refine ⟨⟨rfl, rfl, ?_⟩, rfl, rfl, ?_⟩
  · exact C6_batched_key_sets.2.2.1 [⟨DispatchKey.Batched, 1, some 4, none, 0⟩]
      [.tensor (.base 0 3)] _ _ rfl rfl
  · exact C6_batched_key_sets.2.2.2 [⟨DispatchKey.Batched, 1, some 4, none, 0⟩]
      [.tensor (.batched 1 0 (.base 0 3))] _ _ rfl rfl

theorem unwrapTensorAtLevel_isSome (t : Tensor) (lvl : Nat) :
    ((unwrapTensorAtLevel t lvl).2).isSome = isBatchedAtLevel t lvl := by
  cases t with
  | batched l bd inner =>
    by_cases h : l = lvl <;> simp [unwrapTensorAtLevel, isBatchedAtLevel, h]
  | undef => rfl
  | base i s => rfl
  | grad lvl2 a m inner => rfl

theorem unwrapTensorAtLevel_isNone (t : Tensor) (lvl : Nat) :
    ((unwrapTensorAtLevel t lvl).2).isNone = ! isBatchedAtLevel t lvl := by
  rw [← unwrapTensorAtLevel_isSome]
  cases (unwrapTensorAtLevel t lvl).2 <;> rfl

/-- C9: with a Batching-kind current layer, `nll_loss_forward` takes the
specialized batch rule exactly when self and target are batched at the current
level, the optional weight is absent or unbatched, and `ignore_index` is
negative; every other combination is routed, without any error, to the generic
slow fallback, which (modelled from the spec) loops the unbatched operation
over the slices — identical to applying the unbatched operation to each slice
independently. -/
theorem C9_nll_routing :
    (∀ (st : FTState) (base : List DynamicLayer) (layer : DynamicLayer)
        (self target : Tensor) (weight : Option Tensor) (reduction ignore_index : Int),
      st.dynamicLayerStack = base ++ [layer] →
      (nll_loss_forward_plumbing st self target weight reduction ignore_index
          = .ok .batchRule ↔
        (isBatchedAtLevel self layer.layerId = true ∧
          isBatchedAtLevel target layer.layerId = true ∧
          (match weight with
            | some w => isBatchedAtLevel w layer.layerId = false
            | none => True) ∧
          ignore_index < 0)) ∧
      (nll_loss_forward_plumbing st self target weight reduction ignore_index
          = .ok .batchRule ∨
        nll_loss_forward_plumbing st self target weight reduction ignore_index
          = .ok .slowFallback)) ∧
    (∀ (op : Tensor → Tensor) (slices : List Tensor),
      loopedFallback op slices = slices.map op) := by
  constructor
  · intro st base layer self target weight reduction ignore_index hstack
    have hlast : st.dynamicLayerStack.getLast? = some layer := by rw [hstack]; simp
    constructor
    · simp only [nll_loss_forward_plumbing, hlast]
      split
      · rename_i hc
        obtain ⟨h1, h2, h3, h4⟩ := hc
        simp only [true_iff]
        refine ⟨?_, ?_, ?_, h4⟩
        · rw [← unwrapTensorAtLevel_isSome]
          exact h1
        · rw [← unwrapTensorAtLevel_isSome]
          exact h2
        · cases weight with
          | none => trivial
          | some w =>
            have h6 : (unwrapTensorAtLevel w layer.layerId).2.isNone = true := h3
            rw [unwrapTensorAtLevel_isNone] at h6
            simpa using h6
      · rename_i hc
        simp only [reduceCtorEq, Except.ok.injEq, false_iff]
        intro hd
        obtain ⟨h1, h2, h3, h4⟩ := hd
        apply hc
        refine ⟨?_, ?_, ?_, h4⟩
        · rw [unwrapTensorAtLevel_isSome]
          exact h1
        · rw [unwrapTensorAtLevel_isSome]
          exact h2
        · cases weight with
          | none => rfl
          | some w =>
            show (unwrapTensorAtLevel w layer.layerId).2.isNone = true
            rw [unwrapTensorAtLevel_isNone]
            simp [h3]
    · simp only [nll_loss_forward_plumbing, hlast]
      split
      · exact Or.inl rfl
      · exact Or.inr rfl
  · intro op slices
    induction slices with
    | nil => rfl
    | cons x xs ih => simp [loopedFallback, ih]

/-- Witness for C9 at concrete inputs: self and target batched at the current
level with no weight and `ignore_index = -100` take the batch rule; a batched
weight forces the slow fallback without an error. -/
theorem C9_nll_routing_witness :
    ((⟨[⟨DispatchKey.Batched, 1, some 4, none, 0⟩], some {}, {}, true,
        [true]⟩ : FTState).dynamicLayerStack
      = [] ++ [⟨DispatchKey.Batched, 1, some 4, none, 0⟩]) ∧
    nll_loss_forward_plumbing
        ⟨[⟨DispatchKey.Batched, 1, some 4, none, 0⟩], some {}, {}, true, [true]⟩
        (.batched 1 0 (.base 0 9)) (.batched 1 0 (.base 1 9)) none 0 (-100)
      = .ok .batchRule ∧
    nll_loss_forward_plumbing
        ⟨[⟨DispatchKey.Batched, 1, some 4, none, 0⟩], some {}, {}, true, [true]⟩
        (.batched 1 0 (.base 0 9)) (.batched 1 0 (.base 1 9))
        (some (.batched 1 1 (.base 2 9))) 0 (-100)
      = .ok .slowFallback ∧
    loopedFallback (fun t => Tensor.grad 1 true 0 t) [Tensor.base 0 1, Tensor.base 1 2]
      = [Tensor.base 0 1, Tensor.base 1 2].map (fun t => Tensor.grad 1 true 0 t) := by
  refine ⟨rfl, ?_, ?_, ?_⟩
  · exact ((C9_nll_routing.1
      ⟨[⟨DispatchKey.Batched, 1, some 4, none, 0⟩], some {}, {}, true, [true]⟩
      [] ⟨DispatchKey.Batched, 1, some 4, none, 0⟩
      (.batched 1 0 (.base 0 9)) (.batched 1 0 (.base 1 9)) none 0 (-100) rfl).1).mpr
      (by refine ⟨by decide, by decide, trivial, by decide⟩)
  · have h := (C9_nll_routing.1
      ⟨[⟨DispatchKey.Batched, 1, some 4, none, 0⟩], some {}, {}, true, [true]⟩
      [] ⟨DispatchKey.Batched, 1, some 4, none, 0⟩
      (.batched 1 0 (.base 0 9)) (.batched 1 0 (.base 1 9))
      (some (.batched 1 1 (.base 2 9))) 0 (-100) rfl)
    rcases h.2 with hb | hs
    · exact absurd ((h.1).mp hb).2.2.1 (by decide)
    · exact hs
  · exact C9_nll_routing.2 (fun t => Tensor.grad 1 true 0 t) [Tensor.base 0 1, Tensor.base 1 2]

/-- Error version of the call pattern: if every slot before relative position
`j` of the slice succeeds and slot `j` faults, the whole loop faults. -/
theorem foreachTensorInplace_append_error (f : Tensor → Except Err Tensor)
    (pre slice : List IValue) (j : Nat) (jv : IValue) (err : Err)
    (hj : slice[j]? = some jv) (herr : processIValue f jv = .error err)
    (hok : ∀ (i : Nat) iv, i < j → slice[i]? = some iv → ProcOk f iv) :
    foreachTensorInplace (pre ++ slice)
      (((pre ++ slice).length : Int) - slice.length) ((pre ++ slice).length : Int) f
      = .error err := by
  have hjlt : j < slice.length := (List.getElem?_eq_some.mp hj).1
  have hlen : (pre ++ slice).length = pre.length + slice.length := by simp
  have hb : ((pre ++ slice).length : Int) - slice.length = (pre.length : Int) := by
    simp [hlen]
  rw [foreachTensorInplace, hb]
  rw [if_neg (by simp [hlen]; omega)]
  have htn1 : ((pre.length : Int)).toNat = pre.length := by simp
  have htn2 : (((pre ++ slice).length : Int)).toNat = (pre ++ slice).length := by omega
  rw [htn1, htn2]
  refine foreachGo_error f ((pre ++ slice).length - pre.length) pre.length
    (pre ++ slice) (pre.length + j) jv err (by omega) (by omega) (by omega) ?_ ?_ herr
  · intro i iv h1 h2 hi
    rw [List.getElem?_append_right h1] at hi
    exact hok (i - pre.length) iv (by omega) hi
  · rw [List.getElem?_append_right (by omega : pre.length ≤ pre.length + j)]
    simpa using hj

theorem processIValuePure_id (iv : IValue) : processIValuePure (fun t => t) iv = iv := by
  cases iv with
  | list elts =>
    simp only [processIValuePure, IValue.list.injEq]
    induction elts with
    | nil => rfl
    | cons e rest ih =>
      cases e <;> simp_all
  | tensorList ts => simp [processIValuePure]
  | tensor t => rfl
  | genericDict => rfl
  | scalar n => rfl

/-- A tensor still carrying a grad wrapper or a batching wrapper makes the
sanity check fault. -/
theorem sanityCheckTensor_bad (t : Tensor)
    (h : (maybeGetTensorWrapper t).isSome = true ∨ isBatchedTensor t = true) :
    processIValue sanityCheckTensor (.tensor t) = .error .fatal := by
  have hbad : sanityCheckTensor t = .error .fatal := by
    rcases h with h | h
    · rw [sanityCheckTensor, if_pos h]
    · rw [sanityCheckTensor]
      cases hw : (maybeGetTensorWrapper t).isSome with
      | true => simp
      | false =>
        rw [if_neg (by simp [hw]), if_pos h]
  simp [processIValue, hbad]

/-- C8: with an empty Layer Stack the front interceptor (a) on clean arguments
restores every functorch-controlled capability key to its pre-transform
snapshot value (leaving every other key at its current value) for the duration
of the call, invokes the operation directly on the unmodified argument stack,
returns its result unchanged, and restores the key set afterwards; and (b)
fatally asserts if any tensor argument still carries a grad wrapper or a
batching wrapper, without invoking the operation. -/
theorem C8_empty_stack_boundary :
    ∀ (schema : FunctionSchema) (st : FTState) (vstack : List IValue)
      (prev : LocalDispatchKeySet),
      st.dynamicLayerStack = [] → st.prevLocalKeyset = some prev →
      ((∀ (pre args : List IValue), vstack = pre ++ args →
        args.length = schema.arguments.length →
        (∀ iv ∈ args, iv ≠ .genericDict ∧
          ∀ t ∈ iv.tensors, maybeGetTensorWrapper t = none ∧ isBatchedTensor t = false) →
        ∀ g : CallOracle,
          dynamicLayerFrontFallback schema st vstack g
            = ({ (g { st with tls := resetKeys st.tls prev } vstack).1 with tls := st.tls },
               (g { st with tls := resetKeys st.tls prev } vstack).2.1,
               (g { st with tls := resetKeys st.tls prev } vstack).2.2)) ∧
      (∀ k : DispatchKey, all_dynlayer_keyset.has k = true →
        (resetKeys st.tls prev).included.has k = prev.included.has k ∧
        (resetKeys st.tls prev).excluded.has k = prev.excluded.has k) ∧
      (∀ k : DispatchKey, k ≠ .Undefined → all_dynlayer_keyset.has k = false →
        (resetKeys st.tls prev).included.has k = st.tls.included.has k ∧
        (resetKeys st.tls prev).excluded.has k = st.tls.excluded.has k) ∧
      (∀ (pre args : List IValue) (j : Nat) (t : Tensor), vstack = pre ++ args →
        args.length = schema.arguments.length →
        args[j]? = some (.tensor t) →
        ((maybeGetTensorWrapper t).isSome = true ∨ isBatchedTensor t = true) →
        (∀ (i : Nat) iv, i < j → args[i]? = some iv → ProcOk sanityCheckTensor iv) →
        ∀ g : CallOracle,
          dynamicLayerFrontFallback schema st vstack g = (st, vstack, some .fatal))) := by
  intro schema st vstack prev hstack hprev
  refine ⟨?_, ?_, ?_, ?_⟩
  · intro pre args hv hlen hclean g
    have hgood : ∀ iv ∈ args, GoodAt sanityCheckTensor (fun t => t) iv := by
      intro iv hiv
      obtain ⟨hdict, htens⟩ := hclean iv hiv
      refine ⟨hdict, fun t ht => ?_⟩
      obtain ⟨hw, hbat⟩ := htens t ht
      exact ⟨by rw [sanityCheckTensor, if_neg (by simp [hw]), if_neg (by simp [hbat])],
        fun hd => hd⟩
    have hsan : sanityCheckStack schema vstack
        = .ok (pre ++ args.map (processIValuePure (fun t => t))) := by
      rw [sanityCheckStack, hv, ← hlen]
      exact foreachTensorInplace_append_ok sanityCheckTensor (fun t => t) pre args hgood
    rw [dynamicLayerFrontFallback, if_pos (by simp [hstack]), hsan]
    simp only [hprev]
  · intro k hk
    cases k <;> simp_all [resetKeys, all_dynlayer_keyset, autograd_dispatch_keyset,
      DispatchKeySet.has, DispatchKeySet.sdiff, DispatchKeySet.union, DispatchKeySet.inter]
  · intro k hku hk
    cases k <;> simp_all [resetKeys, all_dynlayer_keyset, autograd_dispatch_keyset,
      DispatchKeySet.has, DispatchKeySet.sdiff, DispatchKeySet.union, DispatchKeySet.inter]
  · intro pre args j t hv hlen hj hbad hok g
    have hsan : sanityCheckStack schema vstack = .error .fatal := by
      rw [sanityCheckStack, hv, ← hlen]
      exact foreachTensorInplace_append_error sanityCheckTensor pre args j
        (.tensor t) .fatal hj (sanityCheckTensor_bad t hbad) hok
    rw [dynamicLayerFrontFallback, if_pos (by simp [hstack]), hsan]

/-- Witness for C8 at concrete inputs: a clean tensor argument is passed through
to the direct call under the snapshot-restored key set, and a grad-wrapped
argument is fatally rejected. -/
theorem C8_empty_stack_boundary_witness :
    ((⟨[], some ⟨{ adInplaceOrView := true }, {}⟩,
        ⟨{ frontMode := true }, { batched := true }⟩, true, []⟩ : FTState).dynamicLayerStack
      = [] ∧
      [IValue.tensor (.base 0 3)] = [] ++ [IValue.tensor (.base 0 3)] ∧
      dynamicLayerFrontFallback ⟨false, [⟨none⟩], []⟩
          ⟨[], some ⟨{ adInplaceOrView := true }, {}⟩,
            ⟨{ frontMode := true }, { batched := true }⟩, true, []⟩
          [.tensor (.base 0 3)] (fun s v => (s, v ++ [.scalar 1], none))
        = (⟨[], some ⟨{ adInplaceOrView := true }, {}⟩,
            ⟨{ frontMode := true }, { batched := true }⟩, true, []⟩,
           [.tensor (.base 0 3), .scalar 1], none)) ∧
    (resetKeys (⟨{ frontMode := true }, { batched := true }⟩ : LocalDispatchKeySet)
        ⟨{ adInplaceOrView := true }, {}⟩).included.has .ADInplaceOrView = true ∧
    ((maybeGetTensorWrapper (.grad 1 true 3 (.base 0 3))).isSome = true ∨
      isBatchedTensor (.grad 1 true 3 (.base 0 3)) = true) ∧
    dynamicLayerFrontFallback ⟨false, [⟨none⟩], []⟩
        ⟨[], some ⟨{ adInplaceOrView := true }, {}⟩,
          ⟨{ frontMode := true }, { batched := true }⟩, true, []⟩
        [.tensor (.grad 1 true 3 (.base 0 3))] (fun s v => (s, v ++ [.scalar 1], none))
      = (⟨[], some ⟨{ adInplaceOrView := true }, {}⟩,
          ⟨{ frontMode := true }, { batched := true }⟩, true, []⟩,
         [.tensor (.grad 1 true 3 (.base 0 3))], some .fatal) := by
  have h := C8_empty_stack_boundary ⟨false, [⟨none⟩], []⟩
    ⟨[], some ⟨{ adInplaceOrView := true }, {}⟩,
      ⟨{ frontMode := true }, { batched := true }⟩, true, []⟩
    [.tensor (.base 0 3)] ⟨{ adInplaceOrView := true }, {}⟩ rfl rfl
  have h2 := C8_empty_stack_boundary ⟨false, [⟨none⟩], []⟩
    ⟨[], some ⟨{ adInplaceOrView := true }, {}⟩,
      ⟨{ frontMode := true }, { batched := true }⟩, true, []⟩
    [.tensor (.grad 1 true 3 (.base 0 3))] ⟨{ adInplaceOrView := true }, {}⟩ rfl rfl
  refine ⟨⟨rfl, rfl, ?_⟩, ?_, by decide, ?_⟩
  · exact h.1 [] [.tensor (.base 0 3)] rfl (by decide) (by decide)
      (fun s v => (s, v ++ [.scalar 1], none))
  · exact (h.2.1 .ADInplaceOrView (by decide)).1
  · exact h2.2.2.2 [] [.tensor (.grad 1 true 3 (.base 0 3))] 0 (.grad 1 true 3 (.base 0 3))
      rfl (by decide) rfl (by decide) (fun i iv hi => by omega)
      (fun s v => (s, v ++ [.scalar 1], none))

/-- C10 counterexample: the claim fails for a function that maps a defined
tensor to an undefined one — the in-range tensor is not replaced by `f` of it;
instead the loop's sanity assert makes the call fatal. -/
theorem C10_counterexample :
    foreachTensorInplace [.tensor (.base 0 0)] 0 1 (fun _ => .ok .undef)
      = .error .fatal ∧
    (Except.error .fatal : Except Err (List IValue)) ≠ .ok [.tensor .undef] :=
  ⟨rfl, fun h => Except.noConfusion h⟩

/-- C10 (amended): for every argument stack, range `[begin, end)` with
`0 ≤ begin ≤ end ≤ size`, and function `f` that succeeds on the range's
tensors and maps defined tensors to defined ones, `foreachTensorInplace`
replaces each tensor in positions `[begin, end)` — including tensors inside
ordered lists and tensor lists — by `f` of that tensor, leaves every
non-tensor element, every position outside the range, the stack's size, and
every list's length and element order unchanged; an in-range keyed-dictionary
argument (every earlier in-range slot processable) is fatally rejected. -/
theorem C10_foreach_frame :
    (∀ (args : List IValue) (b e : Nat) (f : Tensor → Except Err Tensor)
        (fp : Tensor → Tensor),
      b ≤ e → e ≤ args.length →
      (∀ (i : Nat) iv, b ≤ i → i < e → args[i]? = some iv → GoodAt f fp iv) →
      ∃ res, foreachTensorInplace args (b : Int) (e : Int) f = .ok res ∧
        res.length = args.length ∧
        (∀ i : Nat, (i < b ∨ e ≤ i) → res[i]? = args[i]?) ∧
        (∀ (i : Nat) iv, b ≤ i → i < e → args[i]? = some iv →
          res[i]? = some (processIValuePure fp iv)) ∧
        (∀ (i : Nat) (t : Tensor), b ≤ i → i < e → args[i]? = some (.tensor t) →
          res[i]? = some (.tensor (fp t))) ∧
        (∀ (i : Nat) (ts : List Tensor), b ≤ i → i < e →
          args[i]? = some (.tensorList ts) →
          res[i]? = some (.tensorList (ts.map fp))) ∧
        (∀ (i : Nat) (elts : List ListElem), b ≤ i → i < e →
          args[i]? = some (.list elts) →
          res[i]? = some (.list (elts.map
            (fun el => match el with | .tensor t => .tensor (fp t) | _ => el)))) ∧
        (∀ (i : Nat) (n : Int), b ≤ i → i < e → args[i]? = some (.scalar n) →
          res[i]? = some (.scalar n))) ∧
    (∀ (args : List IValue) (b e j : Nat) (f : Tensor → Except Err Tensor),
      b ≤ j → j < e → e ≤ args.length → args[j]? = some .genericDict →
      (∀ (i : Nat) iv, b ≤ i → i < j → args[i]? = some iv → ProcOk f iv) →
      foreachTensorInplace args (b : Int) (e : Int) f = .error .fatal) := by
  constructor
  · intro args b e f fp hbe he hgood
    have hcond : ¬ ((b : Int) < 0 ∨ (e : Int) < 0 ∨ ¬ (b : Int) ≤ (e : Int)) := by
      simp
      omega
    have htn1 : ((b : Int)).toNat = b := by omega
    have htn2 : ((e : Int)).toNat = e := by omega
    obtain ⟨res, hres, hlen, hout, hin⟩ :=
      foreachGo_ok f fp (e - b) b args (by omega)
        (fun i iv h1 h2 hi => hgood i iv h1 (by omega) hi)
    refine ⟨res, ?_, hlen, fun i hi => hout i (by omega), ?_, ?_, ?_, ?_, ?_⟩
    · rw [foreachTensorInplace, if_neg hcond, htn1, htn2]
      exact hres
    · intro i iv h1 h2 hi
      exact hin i iv h1 (by omega) hi
    · intro i t h1 h2 hi
      rw [hin i (.tensor t) h1 (by omega) hi]
      rfl
    · intro i ts h1 h2 hi
      rw [hin i (.tensorList ts) h1 (by omega) hi]
      rfl
    · intro i elts h1 h2 hi
      rw [hin i (.list elts) h1 (by omega) hi]
      rfl
    · intro i n h1 h2 hi
      rw [hin i (.scalar n) h1 (by omega) hi]
      rfl
  · intro args b e j f h1 h2 he hj hok
    have hcond : ¬ ((b : Int) < 0 ∨ (e : Int) < 0 ∨ ¬ (b : Int) ≤ (e : Int)) := by
      simp
      omega
    have htn1 : ((b : Int)).toNat = b := by omega
    have htn2 : ((e : Int)).toNat = e := by omega
    rw [foreachTensorInplace, if_neg hcond, htn1, htn2]
    exact foreachGo_error f (e - b) b args j .genericDict .fatal h1 (by omega)
      (by omega) hok hj rfl

/-- Witness for C10 at concrete inputs: wrapping at level 1 over a range
covering a tensor, a tensor list, an ordered list and a scalar, leaving the
out-of-range slot untouched; and a dictionary argument is fatal. -/
theorem C10_foreach_frame_witness :
    (foreachTensorInplace
        [.tensor (.base 9 9), .tensor (.base 0 4),
          .tensorList [.base 1 5, .base 2 6], .list [.tensor (.base 3 7), .other 8],
          .scalar 11]
        1 5 (fun t => .ok (makeTensorWrapper t 1))
      = .ok [.tensor (.base 9 9), .tensor (.grad 1 true 4 (.base 0 4)),
          .tensorList [.grad 1 true 5 (.base 1 5), .grad 1 true 6 (.base 2 6)],
          .list [.tensor (.grad 1 true 7 (.base 3 7)), .other 8], .scalar 11]) ∧
    foreachTensorInplace [.scalar 0, .genericDict] 0 2 (fun t => .ok t)
      = .error .fatal := by
  constructor
  · obtain ⟨res, hres, hlen, hout, hin, -⟩ := C10_foreach_frame.1
      [.tensor (.base 9 9), .tensor (.base 0 4),
        .tensorList [.base 1 5, .base 2 6], .list [.tensor (.base 3 7), .other 8],
        .scalar 11]
      1 5 (fun t => .ok (makeTensorWrapper t 1)) (fun t => makeTensorWrapper t 1)
      (by omega) (by decide)
      (by
        intro i iv h1 h2 hi
        refine ⟨?_, fun t ht => ⟨rfl, fun _ => rfl⟩⟩
        interval_cases i <;> simp_all <;> subst hi <;> decide)
    have hres' := hres
    have : res = [.tensor (.base 9 9), .tensor (.grad 1 true 4 (.base 0 4)),
        .tensorList [.grad 1 true 5 (.base 1 5), .grad 1 true 6 (.base 2 6)],
        .list [.tensor (.grad 1 true 7 (.base 3 7)), .other 8], .scalar 11] := by
      apply List.ext_getElem?
      intro n
      match n with
      | 0 => rw [hout 0 (by omega)]; rfl
      | 1 => rw [hin 1 (.tensor (.base 0 4)) (by omega) (by omega) rfl]; rfl
      | 2 => rw [hin 2 (.tensorList [.base 1 5, .base 2 6]) (by omega) (by omega) rfl]; rfl
      | 3 => rw [hin 3 (.list [.tensor (.base 3 7), .other 8]) (by omega) (by omega) rfl]; rfl
      | 4 => rw [hin 4 (.scalar 11) (by omega) (by omega) rfl]; rfl
      | (n + 5) =>
        have hres5 : res.length = 5 := by rw [hlen]; rfl
        rw [List.getElem?_eq_none (by omega : res.length ≤ n + 5)]
        rfl
    rw [← this]
    exact hres'
  · exact C10_foreach_frame.2 [.scalar 0, .genericDict] 0 2 1 (fun t => .ok t)
      (by omega) (by omega) (by decide) rfl
      (fun i iv h1 h2 hi => by
        have : i = 0 := by omega
        subst this
        exact ⟨.scalar 0, by cases hi; rfl⟩)

/-- Forcing the front/back mode bits before the snapshot reset is invisible:
the reset overwrites every functorch-controlled key from the snapshot. -/
theorem resetKeys_setFB (b : Bool) (tls prev : LocalDispatchKeySet) :
    resetKeys (setDynamicLayerFrontBackKeysIncluded b tls) prev = resetKeys tls prev := by
  simp [resetKeys, setDynamicLayerFrontBackKeysIncluded, all_dynlayer_keyset,
    autograd_dispatch_keyset, DispatchKeySet.sdiff, DispatchKeySet.union,
    DispatchKeySet.inter]

/-- The scoped-guard unfolding of `dynamicLayerBackFallback` on a non-empty
well-formed stack: the whole call equals the post-processing of the oracle
applied, at the reset-and-remasked state, to the duplicated-and-unwrapped
stack, with the guards' restorations applied to the oracle's result. -/
theorem backFallback_unfold
    (schema : FunctionSchema) (st : FTState) (vstack : List IValue)
    (init : List DynamicLayer) (layer : DynamicLayer) (prev : LocalDispatchKeySet)
    (v2 : List IValue) (g : CallOracle)
    (hstack : st.dynamicLayerStack = init ++ [layer])
    (hkey : layer.key = .Batched ∨ layer.key = .Autograd)
    (hpm : layer.key = .Autograd → layer.prevGradMode.isSome)
    (hprev : st.prevLocalKeyset = some prev)
    (hdup : backDupUnwrap schema layer.key layer.layerId vstack = .ok v2) :
    dynamicLayerBackFallback schema st vstack g =
      (let stCall : FTState :=
        { st with
          dynamicLayerStack := init,
          tls := setDynamicLayerFrontBackKeysIncluded true (resetKeys st.tls prev),
          gradMode := if layer.key = .Autograd ∧ layer.prevGradMode = some false
            then false else st.gradMode };
      let st3 := restoreTop layer
        { (g stCall v2).1 with
          gradMode := if layer.key = .Autograd ∧ layer.prevGradMode = some false
            then st.gradMode else (g stCall v2).1.gradMode,
          tls := if init.isEmpty
            then setDynamicLayerFrontBackKeysIncluded false st.tls else st.tls };
      match (g stCall v2).2.2 with
      | some e => (st3, (g stCall v2).2.1, some e)
      | none =>
        if layer.key = .Autograd then
          match foreachTensorInplace (g stCall v2).2.1
              (((g stCall v2).2.1.length : Int) - schema.returns.length)
              ((g stCall v2).2.1.length : Int) (backWrap layer.layerId) with
          | .error e => (st3, (g stCall v2).2.1, some e)
          | .ok v4 =>
            if v4.length < schema.arguments.length + schema.returns.length then
              (st3, v4, some .fatal)
            else
              (st3,
               (refreshRange v4
                    (v4.length - schema.arguments.length - schema.returns.length)
                    schema.arguments.length).take
                  (v4.length - schema.arguments.length - schema.returns.length) ++
                (refreshRange v4
                    (v4.length - schema.arguments.length - schema.returns.length)
                    schema.arguments.length).drop
                  (v4.length - schema.arguments.length - schema.returns.length
                    + schema.arguments.length),
               none)
        else (st3, (g stCall v2).2.1, none)) := by
  have hlast : st.dynamicLayerStack.getLast? = some layer := by rw [hstack]; simp
  have hdrop : st.dynamicLayerStack.dropLast = init := by rw [hstack]; simp
  have hnotA : ¬ (layer.key = .Autograd ∧ layer.prevGradMode.isNone = true) := by
    rintro ⟨h1, h2⟩
    have h3 := hpm h1
    rw [Option.isNone_iff_eq_none.mp h2] at h3
    simp at h3
  have hnotU : ¬ layer.key = .Undefined := by
    rcases hkey with h | h <;> simp [h]
  rw [dynamicLayerBackFallback, hlast]
  simp only [if_neg hnotA, hdup, if_neg hnotU, hdrop, hprev]
  by_cases hinit : init.isEmpty <;>
    simp only [hinit, ite_true, ite_false, reduceIte, Bool.false_eq_true,
      Bool.true_eq_false, resetKeys_setFB, hprev]

/-- The stack component of the `WithoutTop` destructor: push the layer back. -/
theorem restoreTop_stack (l : DynamicLayer) (s1 : FTState) :
    (restoreTop l s1).dynamicLayerStack = s1.dynamicLayerStack ++ [l] := by
  rw [restoreTop]
  by_cases h : s1.dynamicLayerStack.isEmpty <;> simp [h]

/-- C4 counterexample: the ambient capability context during the real call is
**not** the pre-transform snapshot — the back interceptor forces the
interception-mode keys on after the reset (line 599).  With a snapshot in
which the front-mode key is not included, an oracle that reports the front-mode
included bit it observes sees `true`. -/
theorem C4_counterexample :
    (dynamicLayerBackFallback ⟨false, [], []⟩
        ⟨[⟨DispatchKey.Batched, 1, some 2, none, 0⟩], some ⟨{}, {}⟩,
          ⟨{ frontMode := true, backMode := true }, {}⟩, true, [true]⟩
        []
        (fun s _v => (s, [.scalar (if s.tls.included.frontMode then 1 else 0)], none))).2.1
      = [.scalar 1] ∧
    (⟨{}, {}⟩ : LocalDispatchKeySet).included.frontMode = false := ⟨by decide, rfl⟩

/-- C4 (amended): for every back-interceptor invocation on a well-formed
non-empty stack, the top layer is popped before the real call and pushed back
on every exit path — the resulting Layer Stack equals the stack before the
call, also when the call errors — the oracle runs under a capability context
in which every functorch-controlled key other than the front/back
interception-mode keys holds its pre-transform snapshot value while those two
mode keys are forced on, and when the layer's `prev_mode` records that
differentiation was disabled, grad mode is forced off for the call's duration
and restored afterwards. -/
theorem C4_back_frame :
    ∀ (schema : FunctionSchema) (st : FTState) (vstack : List IValue)
      (init : List DynamicLayer) (layer : DynamicLayer) (prev : LocalDispatchKeySet)
      (v2 : List IValue) (g : CallOracle),
      st.dynamicLayerStack = init ++ [layer] →
      (layer.key = .Batched ∨ layer.key = .Autograd) →
      (layer.key = .Autograd → layer.prevGradMode.isSome) →
      st.prevLocalKeyset = some prev →
      backDupUnwrap schema layer.key layer.layerId vstack = .ok v2 →
      (∀ (s : FTState) (v : List IValue),
        (g s v).1.dynamicLayerStack = s.dynamicLayerStack) →
      (let stCall : FTState :=
        { st with
          dynamicLayerStack := init,
          tls := setDynamicLayerFrontBackKeysIncluded true (resetKeys st.tls prev),
          gradMode := if layer.key = .Autograd ∧ layer.prevGradMode = some false
            then false else st.gradMode };
      (dynamicLayerBackFallback schema st vstack g).1.dynamicLayerStack
        = st.dynamicLayerStack ∧
      (dynamicLayerBackFallback schema st vstack g).1
        = restoreTop layer
            { (g stCall v2).1 with
              gradMode := if layer.key = .Autograd ∧ layer.prevGradMode = some false
                then st.gradMode else (g stCall v2).1.gradMode,
              tls := if init.isEmpty
                then setDynamicLayerFrontBackKeysIncluded false st.tls else st.tls } ∧
      (∀ e : Err, (g stCall v2).2.2 = some e →
        (dynamicLayerBackFallback schema st vstack g).2
          = ((g stCall v2).2.1, some e)) ∧
      (∀ k : DispatchKey, all_dynlayer_keyset.has k = true →
        k ≠ .FrontMode → k ≠ .BackMode →
        stCall.tls.included.has k = prev.included.has k ∧
        stCall.tls.excluded.has k = prev.excluded.has k) ∧
      stCall.tls.included.frontMode = true ∧
      stCall.tls.included.backMode = true ∧
      (layer.key = .Autograd → layer.prevGradMode = some false →
        stCall.gradMode = false)) := by
  intro schema st vstack init layer prev v2 g hstack hkey hpm hprev hdup hframe
  intro stCall
  have hlast : st.dynamicLayerStack.getLast? = some layer := by rw [hstack]; simp
  have hdrop : st.dynamicLayerStack.dropLast = init := by rw [hstack]; simp
  have hnotA : ¬ (layer.key = .Autograd ∧ layer.prevGradMode.isNone = true) := by
    rintro ⟨h1, h2⟩
    have h3 := hpm h1
    rw [Option.isNone_iff_eq_none.mp h2] at h3
    simp at h3
  have hnotU : ¬ layer.key = .Undefined := by
    rcases hkey with h | h <;> simp [h]
  have hbody : dynamicLayerBackFallback schema st vstack g =
      (let st3 := restoreTop layer
        { (g stCall v2).1 with
          gradMode := if layer.key = .Autograd ∧ layer.prevGradMode = some false
            then st.gradMode else (g stCall v2).1.gradMode,
          tls := if init.isEmpty
            then setDynamicLayerFrontBackKeysIncluded false st.tls else st.tls };
      match (g stCall v2).2.2 with
      | some e => (st3, (g stCall v2).2.1, some e)
      | none =>
        if layer.key = .Autograd then
          match foreachTensorInplace (g stCall v2).2.1
              (((g stCall v2).2.1.length : Int) - schema.returns.length)
              ((g stCall v2).2.1.length : Int) (backWrap layer.layerId) with
          | .error e => (st3, (g stCall v2).2.1, some e)
          | .ok v4 =>
            if v4.length < schema.arguments.length + schema.returns.length then
              (st3, v4, some .fatal)
            else
              (st3,
               (refreshRange v4
                    (v4.length - schema.arguments.length - schema.returns.length)
                    schema.arguments.length).take
                  (v4.length - schema.arguments.length - schema.returns.length) ++
                (refreshRange v4
                    (v4.length - schema.arguments.length - schema.returns.length)
                    schema.arguments.length).drop
                  (v4.length - schema.arguments.length - schema.returns.length
                    + schema.arguments.length),
               none)
        else (st3, (g stCall v2).2.1, none)) :=
    backFallback_unfold schema st vstack init layer prev v2 g hstack hkey hpm hprev hdup
  have hrestack := restoreTop_stack
  have hfst : (dynamicLayerBackFallback schema st vstack g).1
      = restoreTop layer
          { (g stCall v2).1 with
            gradMode := if layer.key = .Autograd ∧ layer.prevGradMode = some false
              then st.gradMode else (g stCall v2).1.gradMode,
            tls := if init.isEmpty
              then setDynamicLayerFrontBackKeysIncluded false st.tls else st.tls } := by
    rw [hbody]
    rcases hre : (g stCall v2).2.2 with - | e
    · simp only [hre]
      by_cases hA : layer.key = .Autograd
      · simp only [hA, ite_true, reduceIte]
        rcases hf : foreachTensorInplace (g stCall v2).2.1
            (((g stCall v2).2.1.length : Int) - schema.returns.length)
            ((g stCall v2).2.1.length : Int) (backWrap layer.layerId) with e | v4
        · simp only [hf]
        · simp only [hf]
          by_cases hl : v4.length < schema.arguments.length + schema.returns.length
          · simp only [if_pos hl]
          · simp only [if_neg hl]
      · simp only [if_neg hA]
    · simp only [hre]
  refine ⟨?_, hfst, ?_, ?_, ?_, ?_, ?_⟩
  · rw [hfst, hrestack]
    have hgs : (g stCall v2).1.dynamicLayerStack = init := hframe stCall v2
    simp only [hgs, hstack]
  · intro e hre
    rw [hbody]
    simp only [hre]
  · intro k hk hkf hkb
    clear hbody hfst hrestack hdup
    cases k <;> simp_all only [stCall, setDynamicLayerFrontBackKeysIncluded, resetKeys,
      all_dynlayer_keyset, autograd_dispatch_keyset, DispatchKeySet.has,
      DispatchKeySet.sdiff, DispatchKeySet.union, DispatchKeySet.inter,
      Bool.and_true, Bool.and_false, Bool.or_false, Bool.false_or, Bool.not_true,
      Bool.not_false, Bool.and_self, and_self, Bool.true_and, Bool.false_and,
      Bool.or_true, Bool.true_or, ne_eq, not_true_eq_false, not_false_eq_true,
      Bool.false_eq_true]
  · rfl
  · rfl
  · intro hA hpf
    show (if layer.key = DispatchKey.Autograd ∧ layer.prevGradMode = some false
      then false else st.gradMode) = false
    rw [if_pos ⟨hA, hpf⟩]

/-- Witness for C4 at concrete inputs: a Batched layer whose re-dispatched
call errors — the resulting Layer Stack still equals the original stack. -/
theorem C4_back_frame_witness :
    ((⟨[⟨DispatchKey.Batched, 1, some 2, none, 0⟩], some ⟨{}, {}⟩,
        ⟨{ frontMode := true, backMode := true }, {}⟩, true,
        [true]⟩ : FTState).dynamicLayerStack
      = [] ++ [⟨DispatchKey.Batched, 1, some 2, none, 0⟩] ∧
      backDupUnwrap ⟨false, [], []⟩ DispatchKey.Batched 1 [] = .ok [] ∧
      (⟨[⟨DispatchKey.Batched, 1, some 2, none, 0⟩], some ⟨{}, {}⟩,
        ⟨{ frontMode := true, backMode := true }, {}⟩, true,
        [true]⟩ : FTState).prevLocalKeyset = some ⟨{}, {}⟩) ∧
    (dynamicLayerBackFallback ⟨false, [], []⟩
        ⟨[⟨DispatchKey.Batched, 1, some 2, none, 0⟩], some ⟨{}, {}⟩,
          ⟨{ frontMode := true, backMode := true }, {}⟩, true, [true]⟩
        [] (fun s v => (s, v, some .fatal))).1.dynamicLayerStack
      = [⟨DispatchKey.Batched, 1, some 2, none, 0⟩] := by
  have h := C4_back_frame ⟨false, [], []⟩
    ⟨[⟨DispatchKey.Batched, 1, some 2, none, 0⟩], some ⟨{}, {}⟩,
      ⟨{ frontMode := true, backMode := true }, {}⟩, true, [true]⟩
    [] [] ⟨DispatchKey.Batched, 1, some 2, none, 0⟩ ⟨{}, {}⟩ []
    (fun s v => (s, v, some .fatal)) rfl (Or.inl rfl)
    (fun hh => absurd hh (by decide)) rfl rfl (fun s v => rfl)
  exact ⟨⟨rfl, rfl, rfl⟩, h.1⟩

/-- On a well-formed tensor the back interceptor's `unwrap` lambda succeeds,
computes its pure image, and preserves definedness. -/
theorem backUnwrap_ok (cur : Nat) (t : Tensor)
    (hwf : ∀ (lvl : Nat) (a : Bool) (m : Nat) (inner : Tensor),
      t = .grad lvl a m inner → lvl ≤ cur ∧ inner.defined = true) :
    backUnwrap cur t = .ok (backUnwrapPure cur t) ∧
    (t.defined = true → (backUnwrapPure cur t).defined = true) := by
  cases t with
  | undef => exact ⟨rfl, fun h => h⟩
  | base i sz => exact ⟨rfl, fun _ => rfl⟩
  | batched lvl bd inner => exact ⟨rfl, fun _ => rfl⟩
  | grad lvl a m inner =>
    obtain ⟨hle, hdef⟩ := hwf lvl a m inner rfl
    constructor
    · by_cases hl : lvl = cur <;>
        simp [backUnwrap, backUnwrapPure, Tensor.defined, hle, hl]
    · intro _
      by_cases hl : lvl = cur
      · simpa [backUnwrapPure, Tensor.defined, hl] using hdef
      · simp [backUnwrapPure, Tensor.defined, hl]

/-- The back interceptor's `wrap` lambda always succeeds, computes its pure
image, and preserves definedness. -/
theorem backWrap_ok (cur : Nat) (t : Tensor) :
    backWrap cur t = .ok (backWrapPure cur t) ∧
    (t.defined = true → (backWrapPure cur t).defined = true) := by
  cases t with
  | undef => exact ⟨rfl, fun h => h⟩
  | base i sz => exact ⟨rfl, fun _ => rfl⟩
  | batched lvl bd inner => exact ⟨rfl, fun _ => rfl⟩
  | grad lvl al m inner => exact ⟨rfl, fun _ => rfl⟩

/-- Steps 1-2 of the back fallback on an Autograd layer: the argument slice is
copied onto the stack and each copied tensor is unwrapped at the current
level. -/
theorem backDupUnwrap_eq (schema : FunctionSchema) (cur : Nat)
    (front orig : List IValue)
    (horig : orig.length = schema.arguments.length)
    (hwf : ∀ iv ∈ orig, iv ≠ .genericDict ∧ ∀ t ∈ iv.tensors,
      ∀ (lvl : Nat) (a : Bool) (m : Nat) (inner : Tensor),
        t = .grad lvl a m inner → lvl ≤ cur ∧ inner.defined = true) :
    backDupUnwrap schema .Autograd cur (front ++ orig)
      = .ok ((front ++ orig) ++ orig.map (processIValuePure (backUnwrapPure cur))) := by
  simp only [backDupUnwrap, reduceIte, ite_true]
  rw [if_neg (by simp [← horig])]
  have hdrop : (front ++ orig).drop ((front ++ orig).length - schema.arguments.length)
      = orig := by
    rw [← horig]
    have h1 : (front ++ orig).length - orig.length = front.length := by simp
    rw [h1, List.drop_left]
  rw [hdrop, ← horig]
  exact foreachTensorInplace_append_ok (backUnwrap cur) (backUnwrapPure cur)
    (front ++ orig) orig (fun iv hiv => ⟨(hwf iv hiv).1,
      fun t ht => backUnwrap_ok cur t ((hwf iv hiv).2 t ht)⟩)

/-- Step 5 of the back fallback computed on the stack shape it runs on: only
the middle (pre-call argument) slice is mapped through the metadata refresh. -/
theorem refreshRange_middle (front orig wrets : List IValue) :
    refreshRange ((front ++ orig) ++ wrets) front.length orig.length
      = front ++ orig.map refreshIValue ++ wrets := by
  rw [refreshRange]
  have h1 : ((front ++ orig) ++ wrets).take front.length = front := by
    rw [List.append_assoc, List.take_left]
  have h2 : ((front ++ orig) ++ wrets).drop front.length = orig ++ wrets := by
    rw [List.append_assoc, List.drop_left]
  have h3 : ((front ++ orig) ++ wrets).drop (front.length + orig.length) = wrets := by
    rw [show front.length + orig.length = (front ++ orig).length by simp, List.drop_left]
  rw [h1, h2, h3, List.take_left, List.append_assoc]

/-- C5: for an in-place operation under an Autograd top layer, the back
interceptor duplicates the argument slice and unwraps every duplicated tensor
wrapped at the current level before the real call; the real call consumes the
duplicated slice; afterwards every returned tensor is re-wrapped at the
current level, the wrapper metadata of every remaining (duplicated) pre-call
argument carrying a grad wrapper is refreshed, and that slice is erased,
leaving exactly the operation's declared results on the jit stack while the
Layer Stack is restored. -/
theorem C5_back_inplace_protocol :
    ∀ (schema : FunctionSchema) (st : FTState) (front orig rets : List IValue)
      (init : List DynamicLayer) (layer : DynamicLayer) (prev : LocalDispatchKeySet)
      (g : CallOracle),
      st.dynamicLayerStack = init ++ [layer] →
      layer.key = .Autograd →
      layer.prevGradMode.isSome →
      st.prevLocalKeyset = some prev →
      isInplaceOp schema = true →
      orig.length = schema.arguments.length →
      rets.length = schema.returns.length →
      (∀ iv ∈ orig, iv ≠ .genericDict ∧ ∀ t ∈ iv.tensors,
        ∀ (lvl : Nat) (a : Bool) (m : Nat) (inner : Tensor),
          t = .grad lvl a m inner → lvl ≤ layer.layerId ∧ inner.defined = true) →
      (∀ iv ∈ rets, iv ≠ .genericDict) →
      (∀ s : FTState, ∃ s2 : FTState,
        g s ((front ++ orig) ++ orig.map (processIValuePure (backUnwrapPure layer.layerId)))
          = (s2, front ++ orig ++ rets, none) ∧
        s2.dynamicLayerStack = s.dynamicLayerStack) →
      (backDupUnwrap schema layer.key layer.layerId (front ++ orig)
        = .ok ((front ++ orig) ++
            orig.map (processIValuePure (backUnwrapPure layer.layerId)))) ∧
      (∃ stF, dynamicLayerBackFallback schema st (front ++ orig) g
          = (stF, front ++ rets.map (processIValuePure (backWrapPure layer.layerId)),
              none) ∧
        stF.dynamicLayerStack = st.dynamicLayerStack) ∧
      (refreshRange ((front ++ orig) ++
            rets.map (processIValuePure (backWrapPure layer.layerId)))
          front.length orig.length
        = front ++ orig.map refreshIValue ++
            rets.map (processIValuePure (backWrapPure layer.layerId))) ∧
      (∀ t : Tensor, (maybeGetTensorWrapper t).isSome = true →
        refreshIValue (.tensor t) = .tensor (refreshMetadata t)) ∧
      (∀ (lvl : Nat) (a : Bool) (m : Nat) (inner : Tensor),
        refreshMetadata (.grad lvl a m inner) = .grad lvl a inner.sizes inner) ∧
      (∀ (a : Bool) (m : Nat) (inner : Tensor),
        backUnwrapPure layer.layerId (.grad layer.layerId a m inner) = inner) ∧
      (∀ t : Tensor, t.defined = true →
        backWrapPure layer.layerId t = .grad layer.layerId true t.sizes t) := by
  intro schema st front orig rets init layer prev g hstack hkeyA hpm hprev hinplace
    horig hrets hwf hretswf hg
  have hdupA := backDupUnwrap_eq schema layer.layerId front orig horig hwf
  have hdup : backDupUnwrap schema layer.key layer.layerId (front ++ orig)
      = .ok ((front ++ orig) ++
          orig.map (processIValuePure (backUnwrapPure layer.layerId))) := by
    rw [hkeyA]
    exact hdupA
  refine ⟨hdup, ?_, refreshRange_middle front orig _, ?_, fun _ _ _ _ => rfl, ?_, ?_⟩
  · have hbody := backFallback_unfold schema st (front ++ orig) init layer prev
      ((front ++ orig) ++ orig.map (processIValuePure (backUnwrapPure layer.layerId)))
      g hstack (Or.inr hkeyA) (fun _ => hpm) hprev hdup
    obtain ⟨s2, hgv, hgstack⟩ := hg
      { st with
        dynamicLayerStack := init,
        tls := setDynamicLayerFrontBackKeysIncluded true (resetKeys st.tls prev),
        gradMode := if layer.key = .Autograd ∧ layer.prevGradMode = some false
          then false else st.gradMode }
    have hwrap : foreachTensorInplace (front ++ orig ++ rets)
        (((front ++ orig ++ rets).length : Int) - schema.returns.length)
        ((front ++ orig ++ rets).length : Int) (backWrap layer.layerId)
        = .ok ((front ++ orig) ++
            rets.map (processIValuePure (backWrapPure layer.layerId))) := by
      rw [← hrets]
      exact foreachTensorInplace_append_ok (backWrap layer.layerId)
        (backWrapPure layer.layerId) (front ++ orig) rets
        (fun iv hiv => ⟨hretswf iv hiv, fun t _ => backWrap_ok layer.layerId t⟩)
    refine ⟨restoreTop layer
      { s2 with
        gradMode := if layer.key = .Autograd ∧ layer.prevGradMode = some false
          then st.gradMode else s2.gradMode,
        tls := if init.isEmpty
          then setDynamicLayerFrontBackKeysIncluded false st.tls else st.tls }, ?_, ?_⟩
    · rw [hbody]
      simp only [hgv]
      rw [if_pos hkeyA]
      simp only [hwrap]
      have hlen4 : ((front ++ orig) ++
          rets.map (processIValuePure (backWrapPure layer.layerId))).length
          = front.length + orig.length + rets.length := by
        simp only [List.length_append, List.length_map]
      have hcond : ¬ (((front ++ orig) ++
          rets.map (processIValuePure (backWrapPure layer.layerId))).length
          < schema.arguments.length + schema.returns.length) := by
        rw [hlen4, ← horig, ← hrets]
        omega
      rw [if_neg hcond]
      have harith : ((front ++ orig) ++
          rets.map (processIValuePure (backWrapPure layer.layerId))).length
          - schema.arguments.length - schema.returns.length = front.length := by
        rw [hlen4, ← horig, ← hrets]
        omega
      rw [harith, ← horig, refreshRange_middle front orig _]
      have htake : (front ++ orig.map refreshIValue ++
          rets.map (processIValuePure (backWrapPure layer.layerId))).take front.length
          = front := by
        rw [List.append_assoc, List.take_left]
      have hdrop2 : (front ++ orig.map refreshIValue ++
          rets.map (processIValuePure (backWrapPure layer.layerId))).drop
            (front.length + orig.length)
          = rets.map (processIValuePure (backWrapPure layer.layerId)) := by
        rw [show front.length + orig.length
            = (front ++ orig.map refreshIValue).length by simp, List.drop_left]
      rw [htake, hdrop2]
    · rw [restoreTop_stack]
      show s2.dynamicLayerStack ++ [layer] = st.dynamicLayerStack
      rw [hgstack, hstack]
  · intro t ht
    rw [refreshIValue]
    cases hmw : maybeGetTensorWrapper t with
    | none => rw [hmw] at ht; exact absurd ht (by simp)
    | some u => simp [hmw]
  · intro a m inner
    simp [backUnwrapPure, Tensor.defined]
  · intro t ht
    rw [backWrapPure, if_neg (by simp [ht]), makeTensorWrapper]

/-- Witness for C5 at concrete inputs: an Autograd layer at level 1, one
wrapped in-place argument and one plain returned tensor — the duplicate-and-
unwrap step and the refresh step produce exactly the predicted stacks. -/
theorem C5_back_inplace_protocol_witness :
    isInplaceOp ⟨true, [⟨some ⟨true⟩⟩], [⟨some ⟨true⟩⟩]⟩ = true ∧
    backDupUnwrap ⟨true, [⟨some ⟨true⟩⟩], [⟨some ⟨true⟩⟩]⟩ DispatchKey.Autograd 1
        ([IValue.scalar 7] ++ [IValue.tensor (.grad 1 true 5 (.base 0 5))])
      = .ok (([IValue.scalar 7] ++ [IValue.tensor (.grad 1 true 5 (.base 0 5))]) ++
          [IValue.tensor (.grad 1 true 5 (.base 0 5))].map
            (processIValuePure (backUnwrapPure 1))) ∧
    refreshRange (([IValue.scalar 7] ++ [IValue.tensor (.grad 1 true 5 (.base 0 5))]) ++
          [IValue.tensor (.base 2 6)].map (processIValuePure (backWrapPure 1)))
        1 1
      = [IValue.scalar 7] ++
          [IValue.tensor (.grad 1 true 5 (.base 0 5))].map refreshIValue ++
          [IValue.tensor (.base 2 6)].map (processIValuePure (backWrapPure 1)) := by
  have hwfW : ∀ iv ∈ [IValue.tensor (Tensor.grad 1 true 5 (Tensor.base 0 5))],
      iv ≠ IValue.genericDict ∧ ∀ t ∈ iv.tensors,
        ∀ (lvl : Nat) (a : Bool) (m : Nat) (inner : Tensor),
          t = Tensor.grad lvl a m inner →
            lvl ≤ (⟨DispatchKey.Autograd, 1, none, some true, 0⟩ : DynamicLayer).layerId
              ∧ inner.defined = true := by
    intro iv hiv
    rw [List.mem_singleton] at hiv
    subst hiv
    refine ⟨by decide, ?_⟩
    intro t ht lvl a m inner hteq
    simp only [IValue.tensors, List.mem_singleton] at ht
    subst ht
    injection hteq with h1 h2 h3 h4
    subst h1
    subst h4
    exact ⟨by decide, by decide⟩
  have h := C5_back_inplace_protocol ⟨true, [⟨some ⟨true⟩⟩], [⟨some ⟨true⟩⟩]⟩
    ⟨[⟨DispatchKey.Autograd, 1, none, some true, 0⟩], some ⟨{}, {}⟩, ⟨{}, {}⟩,
      true, [true]⟩
    [IValue.scalar 7] [IValue.tensor (.grad 1 true 5 (.base 0 5))]
    [IValue.tensor (.base 2 6)]
    [] ⟨DispatchKey.Autograd, 1, none, some true, 0⟩ ⟨{}, {}⟩
    (fun s _ => (s, [IValue.scalar 7] ++ [IValue.tensor (.grad 1 true 5 (.base 0 5))]
      ++ [IValue.tensor (.base 2 6)], none))
    rfl rfl rfl rfl (by decide) rfl rfl
    hwfW (by decide) (fun s => ⟨s, rfl, rfl⟩)
  exact ⟨by decide, h.1, h.2.2.1⟩

